import Mathlib

/-!
Verification of xterm256 colour quantisation (`fabulous/_xterm256.c`)

A shallow embedding of the C module that converts between xterm 256-colour
palette indices and RGB triples, followed by theorems about it.

Conventions of the embedding:

* a C `int` is an `Int`; arithmetic whose operands are not confined by a
  guard goes through `int32`, which yields `none` when the mathematical
  result leaves the signed 32-bit range (signed overflow is undefined in C);
* an array read or write outside the array, and the return of a value that
  was never assigned, yield `none`;
* the global `COLOR_TABLE` is passed explicitly as a list of `rgb_t`; the C
  array has 256 entries, which theorems assume as `tbl.length = 256`;
* a `for` loop with constant bounds is a monadic left fold over the list of
  the values its counter takes.
-/

namespace Xterm256

/-! ## Data model -/

/-- The C struct `rgb_t`. -/
structure rgb_t where
  r : Int
  g : Int
  b : Int
  deriving DecidableEq, Repr, Inhabited

/-- The six intensity levels of the colour cube. -/
def CUBE_STEPS : List Int := [0x00, 0x5F, 0x87, 0xAF, 0xD7, 0xFF]

/-- The sixteen ANSI colours. -/
def BASIC16 : List rgb_t :=
  [ ⟨0, 0, 0⟩, ⟨205, 0, 0⟩, ⟨0, 205, 0⟩,
    ⟨205, 205, 0⟩, ⟨0, 0, 238⟩, ⟨205, 0, 205⟩,
    ⟨0, 205, 205⟩, ⟨229, 229, 229⟩, ⟨127, 127, 127⟩,
    ⟨255, 0, 0⟩, ⟨0, 255, 0⟩, ⟨255, 255, 0⟩,
    ⟨92, 92, 255⟩, ⟨255, 0, 255⟩, ⟨0, 255, 255⟩,
    ⟨255, 255, 255⟩ ]

/-- The contents of `COLOR_TABLE` before `init` has run: a global C array is
zero-initialised. -/
def COLOR_TABLE_zero : List rgb_t := List.replicate 256 ⟨0, 0, 0⟩

/-! ## Machine arithmetic and array access -/

def INT_MIN : Int := -2147483648

def INT_MAX : Int := 2147483647

/-- Result of a signed 32-bit operation whose mathematical value is `x`:
defined only when `x` is representable. -/
def int32 (x : Int) : Option Int :=
  if INT_MIN ≤ x ∧ x ≤ INT_MAX then some x else none

/-- Read `a[i]` for a C `int` index: defined only inside the array. -/
def readAt {α : Type} (a : List α) (i : Int) : Option α :=
  if 0 ≤ i then a[i.toNat]? else none

/-- Write `a[i] = v`: defined only inside the array. -/
def writeAt {α : Type} (a : List α) (i : Nat) (v : α) : Option (List α) :=
  if i < a.length then some (a.set i v) else none

/-! ## The decoder -/

/-- The function `xterm_to_rgb`. In the cube branch the local `xcolor` has
been decremented by 16 and is non-negative, so C's truncating `/` and `%`
are `Int.tdiv` and `Int.tmod`. No branch assigns `res` when
`xcolor > 255`. -/
def xterm_to_rgb (xcolor : Int) : Option rgb_t :=
  if xcolor < 16 then
    readAt BASIC16 xcolor
  else if 16 ≤ xcolor ∧ xcolor ≤ 231 then
    let xcolor := xcolor - 16
    do
      let r ← readAt CUBE_STEPS ((xcolor.tdiv 36).tmod 6)
      let g ← readAt CUBE_STEPS ((xcolor.tdiv 6).tmod 6)
      let b ← readAt CUBE_STEPS (xcolor.tmod 6)
      some ⟨r, g, b⟩
  else if 232 ≤ xcolor ∧ xcolor ≤ 255 then
    let v := 8 + (xcolor - 232) * 0x0A
    some ⟨v, v, v⟩
  else
    none

/-! ## The quantiser -/

/-- The C expression `sqr(x - y)`, that is `(x - y) * (x - y)`, on `int`s. -/
def sqr_sub (x y : Int) : Option Int := do
  let t ← int32 (x - y)
  int32 (t * t)

/-- The distance expression of the loop body of `rgb_to_xterm`:
`sqr(p.r - r) + sqr(p.g - g) + sqr(p.b - b)`, added left to right. -/
def distance (p : rgb_t) (r g b : Int) : Option Int := do
  let dr ← sqr_sub p.r r
  let dg ← sqr_sub p.g g
  let s ← int32 (dr + dg)
  let db ← sqr_sub p.b b
  int32 (s + db)

/-- One iteration of the loop of `rgb_to_xterm`; the state is
`(best_match, smallest_distance)`. -/
def rgb_to_xterm_body (tbl : List rgb_t) (r g b : Int)
    (st : Int × Int) (c : Nat) : Option (Int × Int) := do
  let p ← readAt tbl c
  let d ← distance p r g b
  if d < st.2 then some ((c : Int), d) else some st

/-- The function `rgb_to_xterm`, reading the table `tbl`:
`for (c = 16; c < 256; c++)` from `best_match = 0`,
`smallest_distance = 1000000000`. -/
def rgb_to_xterm (tbl : List rgb_t) (r g b : Int) : Option Int :=
  ((List.range' 16 (256 - 16)).foldlM (rgb_to_xterm_body tbl r g b)
    ((0 : Int), (1000000000 : Int))).map Prod.fst

/-! ## The table initialiser -/

/-- One iteration of the loop of `init`:
`COLOR_TABLE[c] = xterm_to_rgb(c)`. -/
def init_body (tbl : List rgb_t) (c : Nat) : Option (List rgb_t) := do
  let v ← xterm_to_rgb c
  writeAt tbl c v

/-- The function `init`: `for (c = 0; c < 256; c++)`, then `return 0`. The
result is the new table and the status. -/
def init (tbl : List rgb_t) : Option (List rgb_t × Int) := do
  let t ← (List.range' 0 256).foldlM init_body tbl
  some (t, 0)

/-! ## Specification-level notions -/

/-- Squared Euclidean distance between a colour and `(r, g, b)`, over the
integers. -/
def sqdist (p : rgb_t) (r g b : Int) : Int :=
  (p.r - r) ^ 2 + (p.g - g) ^ 2 + (p.b - b) ^ 2

/-! ## Auxiliary notions for the proofs -/

/-- Total view of the decoder, with black where it is undefined. -/
def decodeD (i : Nat) : rgb_t := (xterm_to_rgb (i : Int)).getD ⟨0, 0, 0⟩

/-- A colour whose three components are bytes. -/
def isByteColour (p : rgb_t) : Prop :=
  (0 ≤ p.r ∧ p.r ≤ 255) ∧ (0 ≤ p.g ∧ p.g ≤ 255) ∧ (0 ≤ p.b ∧ p.b ≤ 255)

instance (p : rgb_t) : Decidable (isByteColour p) := by
  unfold isByteColour; infer_instance

/-- The table that `init` builds: the decoder applied to 0..255. -/
def palette : List rgb_t := (List.range 256).map decodeD

/-- What the scan of `rgb_to_xterm` holds after the candidates
`16 .. 16 + n - 1`, when candidate `c` has distance `D c`: either the seed,
no candidate being below the sentinel, or the leftmost minimiser. -/
def scanInv (D : Nat → Int) (n : Nat) (st : Int × Int) : Prop :=
  (st = ((0 : Int), (1000000000 : Int)) ∧
      ∀ c : Nat, 16 ≤ c → c < 16 + n → 1000000000 ≤ D c) ∨
  (∃ k : Nat, st = ((k : Int), D k) ∧ 16 ≤ k ∧ k < 16 + n ∧ D k < 1000000000 ∧
      (∀ c : Nat, 16 ≤ c → c < 16 + n → D k ≤ D c) ∧
      (∀ c : Nat, 16 ≤ c → c < k → D k < D c))

/-- Index in 16..255 recovered from a colour of the cube or of the gray
ramp: gray values end in the digit 8, cube levels do not. -/
def indexOfColour (p : rgb_t) : Nat :=
  if p.r % 10 = 8 then 232 + ((p.r - 8) / 10).toNat
  else 16 + 36 * CUBE_STEPS.indexOf p.r + 6 * CUBE_STEPS.indexOf p.g + CUBE_STEPS.indexOf p.b

/-! ## The packed decoder -/

/-- The C expression `x << n` on an `int`: defined when `x` is non-negative
and `x * 2 ^ n` is representable. -/
def shl32 (x : Int) (n : Nat) : Option Int :=
  if 0 ≤ x then int32 (x * 2 ^ n) else none

/-- The function `xterm_to_rgb_i`:
`(res.r << 16) | (res.g << 8) | (res.b << 0)`. -/
def xterm_to_rgb_i (xcolor : Int) : Option Int := do
  let res ← xterm_to_rgb xcolor
  let hi ← shl32 res.r 16
  let mid ← shl32 res.g 8
  let lo ← shl32 res.b 0
  some (Int.lor (Int.lor hi mid) lo)

/-! ## The scan seeded with the first candidate -/

/-- The scan as the specification recommends it, for comparison with
`rgb_to_xterm`: start from `best = 16` with the distance of index 16, then
visit 17..255 with the same strict `<` update. -/
def rgb_to_xterm_seeded (tbl : List rgb_t) (r g b : Int) : Option Int := do
  let p ← readAt tbl 16
  let d ← distance p r g b
  ((List.range' 17 (256 - 17)).foldlM (rgb_to_xterm_body tbl r g b) ((16 : Int), d)).map
    Prod.fst

/-! ## Lemmas: the decoder on 0..255 and the loop of `init` -/

set_option maxRecDepth 100000 in
theorem xterm_to_rgb_defined :
    ∀ i : Nat, i < 256 → xterm_to_rgb (i : Int) = some (decodeD i) ∧ isByteColour (decodeD i) := by
  decide

theorem foldlM_range'_concat {α : Type} (f : α → Nat → Option α) (s n : Nat) (a : α) :
    (List.range' s (n + 1)).foldlM f a = ((List.range' s n).foldlM f a).bind (fun t => f t (s + n)) := by
  rw [List.range'_concat, List.foldlM_append]
  simp

theorem init_loop (tbl : List rgb_t) (hlen : tbl.length = 256) :
    ∀ n : Nat, n ≤ 256 →
      ∃ t, (List.range' 0 n).foldlM init_body tbl = some t ∧ t.length = 256 ∧
        (∀ i : Nat, i < n → t[i]? = some (decodeD i)) ∧
        (∀ i : Nat, n ≤ i → t[i]? = tbl[i]?) := by
  intro n
  induction n with
  | zero =>
    intro _
    exact ⟨tbl, by simp, hlen, by simp, by simp⟩
  | succ n ih =>
    intro hn
    obtain ⟨t, ht, htl, hlo, hhi⟩ := ih (by omega)
    refine ⟨t.set n (decodeD n), ?_, by simpa using htl, ?_, ?_⟩
    · rw [foldlM_range'_concat, ht]
      simp [init_body, (xterm_to_rgb_defined n (by omega)).1, writeAt, htl]
      omega
    · intro i hi
      by_cases h : i = n
      · subst h
        simp [List.getElem?_set, htl]
        omega
      · rw [List.getElem?_set_ne (by omega)]
        exact hlo i (by omega)
    · intro i hi
      rw [List.getElem?_set_ne (by omega)]
      exact hhi i (by omega)

theorem palette_getElem? (i : Nat) (hi : i < 256) : palette[i]? = some (decodeD i) := by
  simp [palette, List.getElem?_map, List.getElem?_range hi]

theorem init_eq_palette (tbl : List rgb_t) (hlen : tbl.length = 256) :
    init tbl = some (palette, 0) := by
  obtain ⟨t, ht, htl, hlo, _⟩ := init_loop tbl hlen 256 (Nat.le_refl _)
  have htp : t = palette := by
    apply List.ext_getElem?
    intro i
    by_cases hi : i < 256
    · rw [hlo i hi, palette_getElem? i hi]
    · rw [List.getElem?_eq_none (by omega), List.getElem?_eq_none (by simp [palette]; omega)]
  simp [init, ht, htp]

/-! ## Lemmas: the distance expression and the scan of `rgb_to_xterm` -/

theorem readAt_natCast {α : Type} (a : List α) (i : Nat) : readAt a (i : Int) = a[i]? := by
  simp [readAt]

theorem int32_eq_some (x : Int) (h1 : -2147483648 ≤ x) (h2 : x ≤ 2147483647) :
    int32 x = some x := by
  simp [int32, INT_MIN, INT_MAX, h1, h2]

theorem sq_le_of_abs_le (t M : Int) (h1 : -M ≤ t) (h2 : t ≤ M) : t * t ≤ M * M := by
  nlinarith

theorem sqr_sub_eq_some (x y : Int) (h1 : -26754 ≤ x - y) (h2 : x - y ≤ 26754) :
    sqr_sub x y = some ((x - y) ^ 2) ∧ 0 ≤ (x - y) ^ 2 ∧ (x - y) ^ 2 ≤ 715776516 := by
  have hsq := sq_le_of_abs_le (x - y) 26754 h1 h2
  have hnn : 0 ≤ (x - y) * (x - y) := mul_self_nonneg _
  have e : (x - y) ^ 2 = (x - y) * (x - y) := by ring
  rw [e]
  refine ⟨?_, hnn, by omega⟩
  simp only [sqr_sub]
  rw [int32_eq_some _ (by omega) (by omega)]
  simp only [Option.bind_eq_bind, Option.some_bind]
  exact int32_eq_some _ (by omega) (by omega)

/-- No step of the distance expression overflows when every component
difference is at most 26754 in absolute value. -/
theorem distance_eq_some (p : rgb_t) (r g b : Int)
    (hr : -26754 ≤ p.r - r ∧ p.r - r ≤ 26754)
    (hg : -26754 ≤ p.g - g ∧ p.g - g ≤ 26754)
    (hb : -26754 ≤ p.b - b ∧ p.b - b ≤ 26754) :
    distance p r g b = some (sqdist p r g b) := by
  obtain ⟨er, r0, r1⟩ := sqr_sub_eq_some p.r r hr.1 hr.2
  obtain ⟨eg, g0, g1⟩ := sqr_sub_eq_some p.g g hg.1 hg.2
  obtain ⟨eb, b0, b1⟩ := sqr_sub_eq_some p.b b hb.1 hb.2
  simp only [distance, er, eg, eb, Option.bind_eq_bind, Option.some_bind]
  rw [int32_eq_some _ (by omega) (by omega)]
  simp only [Option.some_bind]
  rw [int32_eq_some _ (by omega) (by omega)]
  rfl

theorem scan_loop (tbl : List rgb_t) (r g b : Int) (D : Nat → Int)
    (hD : ∀ c : Nat, 16 ≤ c → c < 256 → ∀ st : Int × Int,
      rgb_to_xterm_body tbl r g b st c = some (if D c < st.2 then ((c : Int), D c) else st)) :
    ∀ n : Nat, n ≤ 240 →
      ∃ st, (List.range' 16 n).foldlM (rgb_to_xterm_body tbl r g b)
          ((0 : Int), (1000000000 : Int)) = some st ∧ scanInv D n st := by
  intro n
  induction n with
  | zero =>
    intro _
    refine ⟨((0 : Int), (1000000000 : Int)), by simp, Or.inl ⟨rfl, ?_⟩⟩
    intro c h1 h2
    omega
  | succ n ih =>
    intro hn
    obtain ⟨st, hst, hinv⟩ := ih (by omega)
    rw [foldlM_range'_concat, hst, Option.some_bind, hD (16 + n) (by omega) (by omega) st]
    refine ⟨_, rfl, ?_⟩
    rcases hinv with ⟨hseed, hall⟩ | ⟨k, hk, hk16, hkn, hklt, hmin, hleft⟩
    · subst hseed
      by_cases hlt : D (16 + n) < 1000000000
      · right
        refine ⟨16 + n, by simp [hlt], by omega, by omega, hlt, ?_, ?_⟩
        · intro c h1 h2
          by_cases hc : c = 16 + n
          · subst hc; exact Int.le_refl _
          · have := hall c h1 (by omega); omega
        · intro c h1 h2
          have := hall c h1 h2; omega
      · left
        refine ⟨by simp [hlt], ?_⟩
        intro c h1 h2
        by_cases hc : c = 16 + n
        · subst hc; omega
        · exact hall c h1 (by omega)
    · subst hk
      right
      by_cases hlt : D (16 + n) < D k
      · refine ⟨16 + n, by simp [hlt], by omega, by omega, by omega, ?_, ?_⟩
        · intro c h1 h2
          by_cases hc : c = 16 + n
          · subst hc; exact Int.le_refl _
          · have := hmin c h1 (by omega); omega
        · intro c h1 h2
          have := hmin c h1 h2; omega
      · refine ⟨k, by simp [hlt], hk16, by omega, hklt, ?_, hleft⟩
        intro c h1 h2
        by_cases hc : c = 16 + n
        · subst hc; omega
        · exact hmin c h1 (by omega)

/-- Outcome of `rgb_to_xterm` on a table whose candidate `c` has distance
`D c`. -/
theorem rgb_to_xterm_spec (tbl : List rgb_t) (r g b : Int) (D : Nat → Int)
    (hD : ∀ c : Nat, 16 ≤ c → c < 256 → ∀ st : Int × Int,
      rgb_to_xterm_body tbl r g b st c = some (if D c < st.2 then ((c : Int), D c) else st)) :
    (rgb_to_xterm tbl r g b = some 0 ∧
      ∀ c : Nat, 16 ≤ c → c < 256 → 1000000000 ≤ D c) ∨
    (∃ k : Nat, rgb_to_xterm tbl r g b = some (k : Int) ∧ 16 ≤ k ∧ k < 256 ∧
      D k < 1000000000 ∧
      (∀ c : Nat, 16 ≤ c → c < 256 → D k ≤ D c) ∧
      (∀ c : Nat, 16 ≤ c → c < k → D k < D c)) := by
  obtain ⟨st, hst, hinv⟩ := scan_loop tbl r g b D hD 240 (Nat.le_refl _)
  have hrun : rgb_to_xterm tbl r g b = some st.1 := by
    simp only [rgb_to_xterm]
    rw [show (256 - 16 : Nat) = 240 from rfl, hst]
    rfl
  rcases hinv with ⟨hseed, hall⟩ | ⟨k, hk, hk16, hkn, hklt, hmin, hleft⟩
  · left
    rw [hrun, hseed]
    exact ⟨rfl, fun c h1 h2 => hall c h1 (by omega)⟩
  · right
    refine ⟨k, ?_, hk16, by omega, hklt, fun c h1 h2 => hmin c h1 (by omega), hleft⟩
    rw [hrun, hk]

/-- On the built table, with inputs that keep the arithmetic in range, the
loop body compares the exact squared distance. -/
theorem body_on_palette (r g b : Int)
    (hr : -26499 ≤ r ∧ r ≤ 26754) (hg : -26499 ≤ g ∧ g ≤ 26754)
    (hb : -26499 ≤ b ∧ b ≤ 26754) :
    ∀ c : Nat, 16 ≤ c → c < 256 → ∀ st : Int × Int,
      rgb_to_xterm_body palette r g b st c =
        some (if sqdist (decodeD c) r g b < st.2
          then ((c : Int), sqdist (decodeD c) r g b) else st) := by
  intro c _ hc st
  obtain ⟨_, ⟨⟨r0, r1⟩, ⟨g0, g1⟩, ⟨b0, b1⟩⟩⟩ := xterm_to_rgb_defined c hc
  have hd := distance_eq_some (decodeD c) r g b
    ⟨by omega, by omega⟩ ⟨by omega, by omega⟩ ⟨by omega, by omega⟩
  simp only [rgb_to_xterm_body, readAt_natCast, palette_getElem? c hc, hd,
    Option.bind_eq_bind, Option.some_bind]
  split <;> rfl

set_option maxRecDepth 1000000 in
theorem indexOfColour_decodeD : ∀ i : Nat, i < 256 → 16 ≤ i → indexOfColour (decodeD i) = i := by
  decide

theorem decodeD_injOn (i j : Nat) (hi : 16 ≤ i ∧ i < 256) (hj : 16 ≤ j ∧ j < 256)
    (h : decodeD i = decodeD j) : i = j := by
  rw [← indexOfColour_decodeD i hi.2 hi.1, ← indexOfColour_decodeD j hj.2 hj.1, h]

theorem sqdist_nonneg (p : rgb_t) (r g b : Int) : 0 ≤ sqdist p r g b := by
  unfold sqdist; positivity

theorem sqdist_self (p : rgb_t) : sqdist p p.r p.g p.b = 0 := by
  simp [sqdist]

theorem eq_of_sqdist_eq_zero (p : rgb_t) (r g b : Int) (h : sqdist p r g b = 0) :
    p = ⟨r, g, b⟩ := by
  unfold sqdist at h
  have h1 : 0 ≤ (p.r - r) ^ 2 := sq_nonneg _
  have h2 : 0 ≤ (p.g - g) ^ 2 := sq_nonneg _
  have h3 : 0 ≤ (p.b - b) ^ 2 := sq_nonneg _
  have e1 : (p.r - r) ^ 2 = 0 := by omega
  have e2 : (p.g - g) ^ 2 = 0 := by omega
  have e3 : (p.b - b) ^ 2 = 0 := by omega
  have f1 : p.r = r := by have := pow_eq_zero_iff (two_ne_zero) |>.mp e1; omega
  have f2 : p.g = g := by have := pow_eq_zero_iff (two_ne_zero) |>.mp e2; omega
  have f3 : p.b = b := by have := pow_eq_zero_iff (two_ne_zero) |>.mp e3; omega
  cases p
  simp_all

/-- Largest squared distance between byte colours. -/
theorem sqdist_le (p : rgb_t) (r g b : Int) (hp : isByteColour p)
    (hr : 0 ≤ r ∧ r ≤ 255) (hg : 0 ≤ g ∧ g ≤ 255) (hb : 0 ≤ b ∧ b ≤ 255) :
    sqdist p r g b ≤ 195075 := by
  obtain ⟨⟨r0, r1⟩, ⟨g0, g1⟩, ⟨b0, b1⟩⟩ := hp
  have h1 := sq_le_of_abs_le (p.r - r) 255 (by omega) (by omega)
  have h2 := sq_le_of_abs_le (p.g - g) 255 (by omega) (by omega)
  have h3 := sq_le_of_abs_le (p.b - b) 255 (by omega) (by omega)
  unfold sqdist
  have e1 : (p.r - r) ^ 2 = (p.r - r) * (p.r - r) := by ring
  have e2 : (p.g - g) ^ 2 = (p.g - g) * (p.g - g) := by ring
  have e3 : (p.b - b) ^ 2 = (p.b - b) * (p.b - b) := by ring
  rw [e1, e2, e3]
  omega

theorem COLOR_TABLE_zero_length : COLOR_TABLE_zero.length = 256 :=
  List.length_replicate 256 _

/-- On the built table and byte inputs the scan returns the leftmost
minimiser of the squared distance among the candidates 16..255. -/
theorem rgb_to_xterm_argmin (r g b : Int)
    (hr : 0 ≤ r ∧ r ≤ 255) (hg : 0 ≤ g ∧ g ≤ 255) (hb : 0 ≤ b ∧ b ≤ 255) :
    ∃ k : Nat, rgb_to_xterm palette r g b = some (k : Int) ∧ 16 ≤ k ∧ k < 256 ∧
      (∀ c : Nat, 16 ≤ c → c < 256 →
        sqdist (decodeD k) r g b ≤ sqdist (decodeD c) r g b) ∧
      (∀ c : Nat, 16 ≤ c → c < k →
        sqdist (decodeD k) r g b < sqdist (decodeD c) r g b) := by
  have hD := body_on_palette r g b ⟨by omega, by omega⟩ ⟨by omega, by omega⟩
    ⟨by omega, by omega⟩
  rcases rgb_to_xterm_spec palette r g b (fun c => sqdist (decodeD c) r g b) hD with
    ⟨_, hall⟩ | ⟨k, hk, h16, h256, _, hmin, hleft⟩
  · have h1 := hall 16 (Nat.le_refl _) (by omega)
    have h2 := sqdist_le (decodeD 16) r g b (xterm_to_rgb_defined 16 (by omega)).2 hr hg hb
    simp only at h1
    omega
  · exact ⟨k, hk, h16, h256, hmin, hleft⟩

/-! ## The quantiser on the built table -/

/-- C1: with the table built by `init` from any previous contents, for every
`r, g, b` in [0,255] the index `k` returned by `rgb_to_xterm` minimises the
squared Euclidean distance to `(r, g, b)` over the candidates 16..255, the
colour of an index being `xterm_to_rgb` of it (which is also the table
entry). -/
theorem rgb_to_xterm_nearest (tbl0 : List rgb_t) (hlen : tbl0.length = 256)
    (r g b : Int) (hr : 0 ≤ r ∧ r ≤ 255) (hg : 0 ≤ g ∧ g ≤ 255) (hb : 0 ≤ b ∧ b ≤ 255) :
    ∃ (T : List rgb_t) (k : Nat) (pk : rgb_t),
      init tbl0 = some (T, 0) ∧ rgb_to_xterm T r g b = some (k : Int) ∧
      xterm_to_rgb (k : Int) = some pk ∧ T[k]? = some pk ∧
      ∀ c : Nat, 16 ≤ c → c ≤ 255 →
        ∃ pc : rgb_t, xterm_to_rgb (c : Int) = some pc ∧ T[c]? = some pc ∧
          (pk.r - r) ^ 2 + (pk.g - g) ^ 2 + (pk.b - b) ^ 2 ≤
            (pc.r - r) ^ 2 + (pc.g - g) ^ 2 + (pc.b - b) ^ 2 := by
  obtain ⟨k, hk, _, h256, hmin, _⟩ := rgb_to_xterm_argmin r g b hr hg hb
  refine ⟨palette, k, decodeD k, init_eq_palette tbl0 hlen, hk,
    (xterm_to_rgb_defined k h256).1, palette_getElem? k h256, ?_⟩
  intro c h1 h2
  exact ⟨decodeD c, (xterm_to_rgb_defined c (by omega)).1, palette_getElem? c (by omega),
    hmin c h1 (by omega)⟩

theorem rgb_to_xterm_nearest_witness :
    COLOR_TABLE_zero.length = 256 ∧ (0 ≤ (100 : Int) ∧ (100 : Int) ≤ 255) ∧
    (0 ≤ (150 : Int) ∧ (150 : Int) ≤ 255) ∧ (0 ≤ (200 : Int) ∧ (200 : Int) ≤ 255) ∧
    ∃ (T : List rgb_t) (k : Nat) (pk : rgb_t),
      init COLOR_TABLE_zero = some (T, 0) ∧ rgb_to_xterm T 100 150 200 = some (k : Int) ∧
      xterm_to_rgb (k : Int) = some pk ∧ T[k]? = some pk ∧
      ∀ c : Nat, 16 ≤ c → c ≤ 255 →
        ∃ pc : rgb_t, xterm_to_rgb (c : Int) = some pc ∧ T[c]? = some pc ∧
          (pk.r - 100) ^ 2 + (pk.g - 150) ^ 2 + (pk.b - 200) ^ 2 ≤
            (pc.r - 100) ^ 2 + (pc.g - 150) ^ 2 + (pc.b - 200) ^ 2 :=
  ⟨COLOR_TABLE_zero_length, by decide, by decide, by decide,
    rgb_to_xterm_nearest COLOR_TABLE_zero COLOR_TABLE_zero_length 100 150 200
      (by decide) (by decide) (by decide)⟩

/-- C2: with the table built by `init`, for every `r, g, b` in [0,255] the
index `k` returned by `rgb_to_xterm` lies in [16,255], attains the minimum
squared distance over 16..255, and every candidate `c` with `16 ≤ c < k` is
strictly farther from `(r, g, b)` than `k` is: `k` is the lowest minimiser. -/
theorem rgb_to_xterm_leftmost (tbl0 : List rgb_t) (hlen : tbl0.length = 256)
    (r g b : Int) (hr : 0 ≤ r ∧ r ≤ 255) (hg : 0 ≤ g ∧ g ≤ 255) (hb : 0 ≤ b ∧ b ≤ 255) :
    ∃ (T : List rgb_t) (k : Nat) (pk : rgb_t),
      init tbl0 = some (T, 0) ∧ rgb_to_xterm T r g b = some (k : Int) ∧
      16 ≤ k ∧ k ≤ 255 ∧ xterm_to_rgb (k : Int) = some pk ∧ T[k]? = some pk ∧
      (∀ c : Nat, 16 ≤ c → c ≤ 255 →
        ∃ pc : rgb_t, xterm_to_rgb (c : Int) = some pc ∧ T[c]? = some pc ∧
          sqdist pk r g b ≤ sqdist pc r g b) ∧
      (∀ c : Nat, 16 ≤ c → c < k →
        ∃ pc : rgb_t, xterm_to_rgb (c : Int) = some pc ∧ T[c]? = some pc ∧
          sqdist pk r g b < sqdist pc r g b) := by
  obtain ⟨k, hk, h16, h256, hmin, hleft⟩ := rgb_to_xterm_argmin r g b hr hg hb
  refine ⟨palette, k, decodeD k, init_eq_palette tbl0 hlen, hk, h16, by omega,
    (xterm_to_rgb_defined k h256).1, palette_getElem? k h256, ?_, ?_⟩
  · intro c h1 h2
    exact ⟨decodeD c, (xterm_to_rgb_defined c (by omega)).1, palette_getElem? c (by omega),
      hmin c h1 (by omega)⟩
  · intro c h1 h2
    exact ⟨decodeD c, (xterm_to_rgb_defined c (by omega)).1, palette_getElem? c (by omega),
      hleft c h1 h2⟩

theorem rgb_to_xterm_leftmost_witness :
    COLOR_TABLE_zero.length = 256 ∧ (0 ≤ (255 : Int) ∧ (255 : Int) ≤ 255) ∧
    ∃ (T : List rgb_t) (k : Nat) (pk : rgb_t),
      init COLOR_TABLE_zero = some (T, 0) ∧ rgb_to_xterm T 255 255 255 = some (k : Int) ∧
      16 ≤ k ∧ k ≤ 255 ∧ xterm_to_rgb (k : Int) = some pk ∧ T[k]? = some pk ∧
      (∀ c : Nat, 16 ≤ c → c ≤ 255 →
        ∃ pc : rgb_t, xterm_to_rgb (c : Int) = some pc ∧ T[c]? = some pc ∧
          sqdist pk 255 255 255 ≤ sqdist pc 255 255 255) ∧
      (∀ c : Nat, 16 ≤ c → c < k →
        ∃ pc : rgb_t, xterm_to_rgb (c : Int) = some pc ∧ T[c]? = some pc ∧
          sqdist pk 255 255 255 < sqdist pc 255 255 255) :=
  ⟨COLOR_TABLE_zero_length, by decide,
    rgb_to_xterm_leftmost COLOR_TABLE_zero COLOR_TABLE_zero_length 255 255 255
      (by decide) (by decide) (by decide)⟩

/-- C3: with the table built by `init`, for every index `i` in [16,255],
`rgb_to_xterm` applied to the three components of `xterm_to_rgb i` returns
`i`; in particular `(0,0,0)` gives 16 and `(255,255,255)` gives 231. -/
theorem rgb_to_xterm_round_trip (tbl0 : List rgb_t) (hlen : tbl0.length = 256)
    (i : Nat) (hi : 16 ≤ i ∧ i ≤ 255) :
    ∃ (T : List rgb_t) (p : rgb_t),
      init tbl0 = some (T, 0) ∧ xterm_to_rgb (i : Int) = some p ∧
      rgb_to_xterm T p.r p.g p.b = some (i : Int) ∧
      rgb_to_xterm T 0 0 0 = some 16 ∧ rgb_to_xterm T 255 255 255 = some 231 := by
  have key : ∀ j : Nat, 16 ≤ j → j ≤ 255 →
      rgb_to_xterm palette (decodeD j).r (decodeD j).g (decodeD j).b = some (j : Int) := by
    intro j h1 h2
    obtain ⟨_, hr, hg, hb⟩ := xterm_to_rgb_defined j (by omega)
    obtain ⟨k, hk, h16, h256, hmin, _⟩ :=
      rgb_to_xterm_argmin (decodeD j).r (decodeD j).g (decodeD j).b hr hg hb
    have h0 := hmin j h1 (by omega)
    rw [sqdist_self] at h0
    have hz : sqdist (decodeD k) (decodeD j).r (decodeD j).g (decodeD j).b = 0 :=
      Int.le_antisymm h0 (sqdist_nonneg _ _ _ _)
    have hkj : k = j :=
      decodeD_injOn k j ⟨h16, h256⟩ ⟨h1, by omega⟩ (eq_of_sqdist_eq_zero _ _ _ _ hz)
    rw [hk, hkj]
  refine ⟨palette, decodeD i, init_eq_palette tbl0 hlen,
    (xterm_to_rgb_defined i (by omega)).1, key i hi.1 hi.2, ?_, ?_⟩
  · exact key 16 (by omega) (by omega)
  · exact key 231 (by omega) (by omega)

theorem rgb_to_xterm_round_trip_witness :
    COLOR_TABLE_zero.length = 256 ∧ (16 ≤ 238 ∧ 238 ≤ 255) ∧
    ∃ (T : List rgb_t) (p : rgb_t),
      init COLOR_TABLE_zero = some (T, 0) ∧ xterm_to_rgb ((238 : Nat) : Int) = some p ∧
      rgb_to_xterm T p.r p.g p.b = some ((238 : Nat) : Int) ∧
      rgb_to_xterm T 0 0 0 = some 16 ∧ rgb_to_xterm T 255 255 255 = some 231 :=
  ⟨COLOR_TABLE_zero_length, by decide,
    rgb_to_xterm_round_trip COLOR_TABLE_zero COLOR_TABLE_zero_length 238 (by decide)⟩

/-- C4: with the table built by `init`, for every `r, g, b` in [0,255],
`rgb_to_xterm` returns an index `k` with `16 ≤ k ≤ 255`. -/
theorem rgb_to_xterm_bounds (tbl0 : List rgb_t) (hlen : tbl0.length = 256)
    (r g b : Int) (hr : 0 ≤ r ∧ r ≤ 255) (hg : 0 ≤ g ∧ g ≤ 255) (hb : 0 ≤ b ∧ b ≤ 255) :
    ∃ (T : List rgb_t) (k : Int),
      init tbl0 = some (T, 0) ∧ rgb_to_xterm T r g b = some k ∧ 16 ≤ k ∧ k ≤ 255 := by
  obtain ⟨k, hk, h16, h256, _, _⟩ := rgb_to_xterm_argmin r g b hr hg hb
  exact ⟨palette, (k : Int), init_eq_palette tbl0 hlen, hk, by omega, by omega⟩

theorem rgb_to_xterm_bounds_witness :
    COLOR_TABLE_zero.length = 256 ∧ (0 ≤ (12 : Int) ∧ (12 : Int) ≤ 255) ∧
    (0 ≤ (0 : Int) ∧ (0 : Int) ≤ 255) ∧ (0 ≤ (255 : Int) ∧ (255 : Int) ≤ 255) ∧
    ∃ (T : List rgb_t) (k : Int),
      init COLOR_TABLE_zero = some (T, 0) ∧ rgb_to_xterm T 12 0 255 = some k ∧
      16 ≤ k ∧ k ≤ 255 :=
  ⟨COLOR_TABLE_zero_length, by decide, by decide, by decide,
    rgb_to_xterm_bounds COLOR_TABLE_zero COLOR_TABLE_zero_length 12 0 255
      (by decide) (by decide) (by decide)⟩

/-- Whatever the table and the inputs, a scan that completes holds the seed
index 0 or one of the candidates visited. -/
theorem scan_index_range (tbl : List rgb_t) (r g b : Int) :
    ∀ (n : Nat) (st : Int × Int),
      (List.range' 16 n).foldlM (rgb_to_xterm_body tbl r g b)
        ((0 : Int), (1000000000 : Int)) = some st →
      st.1 = 0 ∨ (16 ≤ st.1 ∧ st.1 < 16 + (n : Int)) := by
  intro n
  induction n with
  | zero =>
    intro st h
    simp at h
    left; rw [← h]
  | succ n ih =>
    intro st h
    rw [foldlM_range'_concat] at h
    cases hprev : (List.range' 16 n).foldlM (rgb_to_xterm_body tbl r g b)
        ((0 : Int), (1000000000 : Int)) with
    | none => rw [hprev] at h; simp at h
    | some st0 =>
      rw [hprev, Option.some_bind] at h
      have ih0 := ih st0 hprev
      simp only [rgb_to_xterm_body, Option.bind_eq_bind] at h
      cases hp : readAt tbl ((16 + n : Nat) : Int) with
      | none => rw [hp] at h; simp at h
      | some p =>
        rw [hp, Option.some_bind] at h
        cases hd : distance p r g b with
        | none => rw [hd] at h; simp at h
        | some d =>
          rw [hd, Option.some_bind] at h
          by_cases hlt : d < st0.2
          · rw [if_pos hlt] at h
            have e : st = (((16 + n : Nat) : Int), d) := (Option.some.inj h).symm
            right
            rw [e]
            push_cast
            constructor <;> simp
          · rw [if_neg hlt] at h
            have e : st = st0 := (Option.some.inj h).symm
            rw [e]
            rcases ih0 with h0 | ⟨h1, h2⟩
            · left; exact h0
            · right; push_cast; omega

theorem decodeD_16 : decodeD 16 = ⟨0, 0, 0⟩ := by decide

theorem int32_some_eq (x y : Int) (h : int32 x = some y) : y = x := by
  unfold int32 at h
  split at h
  · exact (Option.some.inj h).symm
  · exact Option.noConfusion h

theorem sqr_sub_some_eq (x y v : Int) (h : sqr_sub x y = some v) : v = (x - y) ^ 2 := by
  simp only [sqr_sub, Option.bind_eq_bind, Option.bind_eq_some] at h
  obtain ⟨t, ht, hv⟩ := h
  rw [int32_some_eq _ _ hv, int32_some_eq _ _ ht]
  ring

/-- When the distance expression is defined, its value is the exact squared
distance. -/
theorem distance_some_eq (p : rgb_t) (r g b d : Int) (h : distance p r g b = some d) :
    d = sqdist p r g b := by
  simp only [distance, Option.bind_eq_bind, Option.bind_eq_some] at h
  obtain ⟨dr, hdr, dg, hdg, s, hs, db, hdb, hd⟩ := h
  rw [int32_some_eq _ _ hd, int32_some_eq _ _ hs, sqr_sub_some_eq _ _ _ hdr,
    sqr_sub_some_eq _ _ _ hdg, sqr_sub_some_eq _ _ _ hdb]
  rfl

/-- On the built table, when no candidate's distance overflows, the loop
body compares the exact squared distance. -/
theorem body_of_defined (r g b : Int)
    (hdef : ∀ c : Nat, 16 ≤ c → c < 256 → ∃ d : Int, distance (decodeD c) r g b = some d) :
    ∀ c : Nat, 16 ≤ c → c < 256 → ∀ st : Int × Int,
      rgb_to_xterm_body palette r g b st c =
        some (if sqdist (decodeD c) r g b < st.2
          then ((c : Int), sqdist (decodeD c) r g b) else st) := by
  intro c h16 hc st
  obtain ⟨d, hd⟩ := hdef c h16 hc
  have e := distance_some_eq _ _ _ _ _ hd
  rw [e] at hd
  simp only [rgb_to_xterm_body, readAt_natCast, palette_getElem? c hc, hd,
    Option.bind_eq_bind, Option.some_bind]
  split <;> rfl

theorem foldlM_none_of_mem {α β : Type} (f : β → α → Option β) (a : α)
    (hf : ∀ t : β, f t a = none) :
    ∀ (l : List α) (s : β), a ∈ l → l.foldlM f s = none := by
  intro l
  induction l with
  | nil => intro s h; exact absurd h (List.not_mem_nil a)
  | cons x l ih =>
    intro s h
    simp only [List.foldlM_cons]
    by_cases hx : x = a
    · rw [hx, hf s]; rfl
    · have hmem : a ∈ l := by
        rcases List.mem_cons.mp h with h1 | h1
        · exact absurd h1.symm hx
        · exact h1
      cases f s x with
      | none => rfl
      | some t => exact ih t hmem

/-- A candidate whose distance overflows makes the whole call undefined. -/
theorem rgb_to_xterm_none_of_overflow (r g b : Int) (c : Nat) (h16 : 16 ≤ c) (hc : c < 256)
    (hov : distance (decodeD c) r g b = none) : rgb_to_xterm palette r g b = none := by
  have hbody : ∀ st : Int × Int, rgb_to_xterm_body palette r g b st c = none := by
    intro st
    simp only [rgb_to_xterm_body, readAt_natCast, palette_getElem? c hc, hov,
      Option.bind_eq_bind, Option.some_bind, Option.none_bind]
  have hmem : c ∈ List.range' 16 (256 - 16) := List.mem_range'_1.mpr ⟨h16, by omega⟩
  unfold rgb_to_xterm
  rw [foldlM_none_of_mem _ c hbody _ _ hmem]
  rfl

/-- For non-positive inputs no byte colour is nearer than black. -/
theorem sqdist_black_le (p : rgb_t) (hp : isByteColour p) (r g b : Int)
    (hr : r ≤ 0) (hg : g ≤ 0) (hb : b ≤ 0) :
    r * r + g * g + b * b ≤ sqdist p r g b := by
  obtain ⟨⟨r0, _⟩, ⟨g0, _⟩, ⟨b0, _⟩⟩ := hp
  unfold sqdist
  nlinarith [mul_nonneg r0 (show 0 ≤ p.r - 2 * r by omega),
    mul_nonneg g0 (show 0 ≤ p.g - 2 * g by omega),
    mul_nonneg b0 (show 0 ≤ p.b - 2 * b by omega)]

/-- On the built table, with inputs that keep the arithmetic in range: when
every candidate is at squared distance at least 1000000000 the seed 0 is
returned. -/
theorem rgb_to_xterm_far (r g b : Int)
    (hr : -26499 ≤ r ∧ r ≤ 26754) (hg : -26499 ≤ g ∧ g ≤ 26754)
    (hb : -26499 ≤ b ∧ b ≤ 26754)
    (hfar : ∀ c : Nat, 16 ≤ c → c < 256 → 1000000000 ≤ sqdist (decodeD c) r g b) :
    rgb_to_xterm palette r g b = some 0 := by
  rcases rgb_to_xterm_spec palette r g b (fun c => sqdist (decodeD c) r g b)
      (body_on_palette r g b hr hg hb) with ⟨h0, _⟩ | ⟨k, _, h16, h256, hlt, _, _⟩
  · exact h0
  · exfalso
    have hfk := hfar k h16 h256
    have hlt2 : sqdist (decodeD k) r g b < 1000000000 := hlt
    omega

theorem rgb_to_xterm_far_neg : rgb_to_xterm palette (-18258) (-18258) (-18258) = some 0 := by
  apply rgb_to_xterm_far _ _ _ ⟨by omega, by omega⟩ ⟨by omega, by omega⟩ ⟨by omega, by omega⟩
  intro c _ hc
  have := sqdist_black_le (decodeD c) (xterm_to_rgb_defined c hc).2 (-18258) (-18258) (-18258)
    (by omega) (by omega) (by omega)
  omega

theorem rgb_to_xterm_far_pos : rgb_to_xterm palette 18513 18513 18513 = some 0 := by
  apply rgb_to_xterm_far _ _ _ ⟨by omega, by omega⟩ ⟨by omega, by omega⟩ ⟨by omega, by omega⟩
  intro c _ hc
  obtain ⟨_, ⟨⟨_, r1⟩, ⟨_, g1⟩, ⟨_, b1⟩⟩⟩ := xterm_to_rgb_defined c hc
  unfold sqdist
  nlinarith [mul_nonneg (show (0 : Int) ≤ 255 - (decodeD c).r by omega)
      (show (0 : Int) ≤ 36771 - (decodeD c).r by omega),
    mul_nonneg (show (0 : Int) ≤ 255 - (decodeD c).g by omega)
      (show (0 : Int) ≤ 36771 - (decodeD c).g by omega),
    mul_nonneg (show (0 : Int) ≤ 255 - (decodeD c).b by omega)
      (show (0 : Int) ≤ 36771 - (decodeD c).b by omega)]

theorem rgb_to_xterm_at_sentinel :
    rgb_to_xterm palette (-24000) (-18000) (-10000) = some 0 := by
  apply rgb_to_xterm_far _ _ _ ⟨by omega, by omega⟩ ⟨by omega, by omega⟩ ⟨by omega, by omega⟩
  intro c _ hc
  have := sqdist_black_le (decodeD c) (xterm_to_rgb_defined c hc).2 (-24000) (-18000) (-10000)
    (by omega) (by omega) (by omega)
  omega

theorem rgb_to_xterm_below_sentinel :
    rgb_to_xterm palette (-23995) (-19617) (-6278) = some 16 := by
  have e16 : sqdist (decodeD 16) (-23995) (-19617) (-6278) = 999999998 := by
    rw [decodeD_16]; rfl
  rcases rgb_to_xterm_spec palette (-23995) (-19617) (-6278)
      (fun c => sqdist (decodeD c) (-23995) (-19617) (-6278))
      (body_on_palette _ _ _ ⟨by omega, by omega⟩ ⟨by omega, by omega⟩ ⟨by omega, by omega⟩)
    with ⟨_, hall⟩ | ⟨k, hk, h16, h256, _, _, hleft⟩
  · exfalso
    have h : 1000000000 ≤ sqdist (decodeD 16) (-23995) (-19617) (-6278) :=
      hall 16 (Nat.le_refl _) (by omega)
    omega
  · by_cases hk16 : k = 16
    · rw [hk, hk16]; rfl
    · exfalso
      have h1 : sqdist (decodeD k) (-23995) (-19617) (-6278) <
          sqdist (decodeD 16) (-23995) (-19617) (-6278) :=
        hleft 16 (Nat.le_refl _) (by omega)
      have h2 := sqdist_black_le (decodeD k) (xterm_to_rgb_defined k h256).2
        (-23995) (-19617) (-6278) (by omega) (by omega) (by omega)
      omega

set_option maxRecDepth 100000 in
theorem decodeD_corners :
    decodeD 16 = ⟨0, 0, 0⟩ ∧ decodeD 21 = ⟨0, 0, 255⟩ ∧ decodeD 46 = ⟨0, 255, 0⟩ ∧
    decodeD 51 = ⟨0, 255, 255⟩ ∧ decodeD 196 = ⟨255, 0, 0⟩ ∧ decodeD 201 = ⟨255, 0, 255⟩ ∧
    decodeD 226 = ⟨255, 255, 0⟩ ∧ decodeD 231 = ⟨255, 255, 255⟩ := by
  decide

/-- Every point of the box [-18257, 18512]^3 has a corner of the colour cube
at squared distance below 1000000000. -/
theorem corner_near (r g b : Int)
    (hr : -18257 ≤ r ∧ r ≤ 18512) (hg : -18257 ≤ g ∧ g ≤ 18512)
    (hb : -18257 ≤ b ∧ b ≤ 18512) :
    ∃ c : Nat, 16 ≤ c ∧ c < 256 ∧ sqdist (decodeD c) r g b < 1000000000 := by
  obtain ⟨c0, c1, c2, c3, c4, c5, c6, c7⟩ := decodeD_corners
  have key : ∀ x : Int, -18257 ≤ x → x ≤ 18512 →
      ((0 - x) ^ 2 ≤ 333318049 ∧ x ≤ 127) ∨ ((255 - x) ^ 2 ≤ 333318049 ∧ 127 < x) := by
    intro x h1 h2
    by_cases hx : x ≤ 127
    · left
      have := sq_le_of_abs_le (0 - x) 18257 (by omega) (by omega)
      have e : ((0 : Int) - x) ^ 2 = (0 - x) * (0 - x) := by ring
      rw [e]; exact ⟨by omega, hx⟩
    · right
      have := sq_le_of_abs_le (255 - x) 18257 (by omega) (by omega)
      have e : ((255 : Int) - x) ^ 2 = (255 - x) * (255 - x) := by ring
      rw [e]; exact ⟨by omega, by omega⟩
  rcases key r hr.1 hr.2 with ⟨kr, _⟩ | ⟨kr, _⟩ <;>
  rcases key g hg.1 hg.2 with ⟨kg, _⟩ | ⟨kg, _⟩ <;>
  rcases key b hb.1 hb.2 with ⟨kb, _⟩ | ⟨kb, _⟩
  · exact ⟨16, by omega, by omega, by rw [c0]; simp only [sqdist]; omega⟩
  · exact ⟨21, by omega, by omega, by rw [c1]; simp only [sqdist]; omega⟩
  · exact ⟨46, by omega, by omega, by rw [c2]; simp only [sqdist]; omega⟩
  · exact ⟨51, by omega, by omega, by rw [c3]; simp only [sqdist]; omega⟩
  · exact ⟨196, by omega, by omega, by rw [c4]; simp only [sqdist]; omega⟩
  · exact ⟨201, by omega, by omega, by rw [c5]; simp only [sqdist]; omega⟩
  · exact ⟨226, by omega, by omega, by rw [c6]; simp only [sqdist]; omega⟩
  · exact ⟨231, by omega, by omega, by rw [c7]; simp only [sqdist]; omega⟩

/-- C5 (amended): with the table `T` built by `init`, for every 32-bit
`r, g, b`:
(a) a call of `rgb_to_xterm` that returns yields the seed 0 or an index in
[16,255];
(b) if the distance of some candidate overflows, the call is undefined;
(c) if no candidate's distance overflows, the call returns some `k`, with
`k = 0` exactly when every candidate in 16..255 is at squared distance at
least 1000000000, and `16 ≤ k ≤ 255` exactly when some candidate is at
squared distance below 1000000000, `k` being then the lowest minimiser;
(d) no distance overflows when `r, g, b` lie in [-26499, 26754];
(e) the call returns an index in [16,255] whenever `r, g, b` lie in
[-18257, 18512];
(f) that box cannot be widened, and the threshold is the sentinel:
`(-18258,-18258,-18258)` and `(18513,18513,18513)` give 0,
`(-24000,-18000,-10000)`, whose nearest candidate is at squared distance
exactly 1000000000, gives 0, and `(-23995,-19617,-6278)`, whose nearest
candidate is at squared distance 999999998, gives 16. -/
theorem rgb_to_xterm_bounds_wide (tbl0 : List rgb_t) (hlen : tbl0.length = 256)
    (r g b : Int) (_hr : INT_MIN ≤ r ∧ r ≤ INT_MAX) (_hg : INT_MIN ≤ g ∧ g ≤ INT_MAX)
    (_hb : INT_MIN ≤ b ∧ b ≤ INT_MAX) :
    ∃ T : List rgb_t, init tbl0 = some (T, 0) ∧
      (∀ k : Int, rgb_to_xterm T r g b = some k → k = 0 ∨ (16 ≤ k ∧ k ≤ 255)) ∧
      ((∃ c : Nat, 16 ≤ c ∧ c ≤ 255 ∧
          ∃ p : rgb_t, T[c]? = some p ∧ distance p r g b = none) →
        rgb_to_xterm T r g b = none) ∧
      ((∀ c : Nat, 16 ≤ c → c ≤ 255 →
          ∃ (p : rgb_t) (d : Int), T[c]? = some p ∧ distance p r g b = some d) →
        ∃ k : Int, rgb_to_xterm T r g b = some k ∧
          (k = 0 ↔ ∀ c : Nat, 16 ≤ c → c ≤ 255 →
            ∃ p : rgb_t, T[c]? = some p ∧ 1000000000 ≤ sqdist p r g b) ∧
          ((16 ≤ k ∧ k ≤ 255) ↔ ∃ c : Nat, 16 ≤ c ∧ c ≤ 255 ∧
            ∃ p : rgb_t, T[c]? = some p ∧ sqdist p r g b < 1000000000) ∧
          ((16 ≤ k ∧ k ≤ 255) → ∃ pk : rgb_t, T[k.toNat]? = some pk ∧
            (∀ c : Nat, 16 ≤ c → c ≤ 255 →
              ∃ pc : rgb_t, T[c]? = some pc ∧ sqdist pk r g b ≤ sqdist pc r g b) ∧
            (∀ c : Nat, 16 ≤ c → (c : Int) < k →
              ∃ pc : rgb_t, T[c]? = some pc ∧ sqdist pk r g b < sqdist pc r g b))) ∧
      ((-26499 ≤ r ∧ r ≤ 26754) → (-26499 ≤ g ∧ g ≤ 26754) → (-26499 ≤ b ∧ b ≤ 26754) →
        ∀ c : Nat, 16 ≤ c → c ≤ 255 →
          ∃ (p : rgb_t) (d : Int), T[c]? = some p ∧ distance p r g b = some d) ∧
      ((-18257 ≤ r ∧ r ≤ 18512) → (-18257 ≤ g ∧ g ≤ 18512) → (-18257 ≤ b ∧ b ≤ 18512) →
        ∃ k : Int, rgb_to_xterm T r g b = some k ∧ 16 ≤ k ∧ k ≤ 255) ∧
      rgb_to_xterm T (-18258) (-18258) (-18258) = some 0 ∧
      rgb_to_xterm T 18513 18513 18513 = some 0 ∧
      rgb_to_xterm T (-24000) (-18000) (-10000) = some 0 ∧
      rgb_to_xterm T (-23995) (-19617) (-6278) = some 16 := by
  refine ⟨palette, init_eq_palette tbl0 hlen, ?_, ?_, ?_, ?_, ?_, rgb_to_xterm_far_neg,
    rgb_to_xterm_far_pos, rgb_to_xterm_at_sentinel, rgb_to_xterm_below_sentinel⟩
  · intro k hk
    simp only [rgb_to_xterm, Option.map_eq_some'] at hk
    obtain ⟨st, hst, hfst⟩ := hk
    have := scan_index_range palette r g b (256 - 16) st hst
    rw [hfst] at this
    rcases this with h | ⟨h1, h2⟩
    · left; exact h
    · right; constructor
      · exact h1
      · have e : (((256 - 16 : Nat)) : Int) = 240 := by norm_num
        rw [e] at h2
        omega
  · rintro ⟨c, h16, h255, p, hp, hov⟩
    have hc : c < 256 := by omega
    rw [palette_getElem? c hc] at hp
    rw [← Option.some.inj hp] at hov
    exact rgb_to_xterm_none_of_overflow r g b c h16 hc hov
  · intro hdef
    have hdef2 : ∀ c : Nat, 16 ≤ c → c < 256 →
        ∃ d : Int, distance (decodeD c) r g b = some d := by
      intro c h16 hc
      obtain ⟨p, d, hp, hd⟩ := hdef c h16 (by omega)
      rw [palette_getElem? c hc] at hp
      rw [← Option.some.inj hp] at hd
      exact ⟨d, hd⟩
    rcases rgb_to_xterm_spec palette r g b (fun c => sqdist (decodeD c) r g b)
        (body_of_defined r g b hdef2) with
      ⟨h0, hall⟩ | ⟨k, hk, h16, h256, hlt, hmin, hleft⟩
    · refine ⟨0, h0, ?_, ?_, ?_⟩
      · constructor
        · intro _ c hc16 hc255
          exact ⟨decodeD c, palette_getElem? c (by omega), hall c hc16 (by omega)⟩
        · intro _; rfl
      · constructor
        · intro h; omega
        · rintro ⟨c, hc16, hc255, p, hp, hlt⟩
          exfalso
          rw [palette_getElem? c (by omega)] at hp
          rw [← Option.some.inj hp] at hlt
          have hge : 1000000000 ≤ sqdist (decodeD c) r g b := hall c hc16 (by omega)
          omega
      · intro h; omega
    · have hlt2 : sqdist (decodeD k) r g b < 1000000000 := hlt
      refine ⟨(k : Int), hk, ?_, ?_, ?_⟩
      · constructor
        · intro h; omega
        · intro h
          exfalso
          obtain ⟨p, hp, hge⟩ := h k h16 (by omega)
          rw [palette_getElem? k h256] at hp
          rw [← Option.some.inj hp] at hge
          omega
      · constructor
        · intro _
          exact ⟨k, h16, by omega, decodeD k, palette_getElem? k h256, hlt2⟩
        · intro _; omega
      · intro _
        refine ⟨decodeD k, by rw [Int.toNat_ofNat]; exact palette_getElem? k h256, ?_, ?_⟩
        · intro c hc16 hc255
          exact ⟨decodeD c, palette_getElem? c (by omega), hmin c hc16 (by omega)⟩
        · intro c hc16 hck
          exact ⟨decodeD c, palette_getElem? c (by omega), hleft c hc16 (by omega)⟩
  · intro wr wg wb c hc16 hc255
    have hc : c < 256 := by omega
    obtain ⟨_, ⟨⟨r0, r1⟩, ⟨g0, g1⟩, ⟨b0, b1⟩⟩⟩ := xterm_to_rgb_defined c hc
    exact ⟨decodeD c, sqdist (decodeD c) r g b, palette_getElem? c hc,
      distance_eq_some (decodeD c) r g b ⟨by omega, by omega⟩ ⟨by omega, by omega⟩
        ⟨by omega, by omega⟩⟩
  · intro wr wg wb
    obtain ⟨c, hc16, hc256, hnear⟩ := corner_near r g b wr wg wb
    rcases rgb_to_xterm_spec palette r g b (fun c => sqdist (decodeD c) r g b)
        (body_on_palette r g b ⟨by omega, by omega⟩ ⟨by omega, by omega⟩
          ⟨by omega, by omega⟩) with
      ⟨_, hall⟩ | ⟨k, hk, h16, h256, _, _, _⟩
    · exfalso
      have hge : 1000000000 ≤ sqdist (decodeD c) r g b := hall c hc16 hc256
      omega
    · exact ⟨(k : Int), hk, by omega, by omega⟩

theorem rgb_to_xterm_bounds_wide_witness :
    COLOR_TABLE_zero.length = 256 ∧
    (INT_MIN ≤ (-18257 : Int) ∧ (-18257 : Int) ≤ INT_MAX) ∧
    (INT_MIN ≤ (300 : Int) ∧ (300 : Int) ≤ INT_MAX) ∧
    (INT_MIN ≤ (18512 : Int) ∧ (18512 : Int) ≤ INT_MAX) ∧
    ∃ T : List rgb_t, init COLOR_TABLE_zero = some (T, 0) ∧
      (∃ k : Int, rgb_to_xterm T (-18257) 300 18512 = some k ∧ 16 ≤ k ∧ k ≤ 255) ∧
      rgb_to_xterm T (-18258) (-18258) (-18258) = some 0 ∧
      rgb_to_xterm T 18513 18513 18513 = some 0 ∧
      rgb_to_xterm T (-24000) (-18000) (-10000) = some 0 ∧
      rgb_to_xterm T (-23995) (-19617) (-6278) = some 16 :=
  ⟨COLOR_TABLE_zero_length, by decide, by decide, by decide,
    (rgb_to_xterm_bounds_wide COLOR_TABLE_zero COLOR_TABLE_zero_length (-18257) 300 18512
      (by decide) (by decide) (by decide)).elim
      (fun T h => ⟨T, h.1, h.2.2.2.2.2.1 (by decide) (by decide) (by decide),
        h.2.2.2.2.2.2⟩)⟩

/-- C5 (counterexample): `(-20000, -20000, -20000)` is a triple of 32-bit
integers on which no step overflows, every candidate is at squared distance
at least 1200000000, and `rgb_to_xterm` on the built table returns 0. -/
theorem rgb_to_xterm_below_16 :
    (INT_MIN ≤ (-20000 : Int) ∧ (-20000 : Int) ≤ INT_MAX) ∧
    ∃ T : List rgb_t, init COLOR_TABLE_zero = some (T, 0) ∧
      rgb_to_xterm T (-20000) (-20000) (-20000) = some 0 := by
  refine ⟨by decide, palette, init_eq_palette _ COLOR_TABLE_zero_length, ?_⟩
  have hD := body_on_palette (-20000) (-20000) (-20000) ⟨by omega, by omega⟩
    ⟨by omega, by omega⟩ ⟨by omega, by omega⟩
  rcases rgb_to_xterm_spec palette (-20000) (-20000) (-20000)
      (fun c => sqdist (decodeD c) (-20000) (-20000) (-20000)) hD with
    ⟨h0, _⟩ | ⟨k, _, _, h256, hlt, _, _⟩
  · exact h0
  · exfalso
    obtain ⟨_, ⟨⟨r0, _⟩, ⟨g0, _⟩, ⟨b0, _⟩⟩⟩ := xterm_to_rgb_defined k h256
    simp only [sqdist] at hlt
    nlinarith

/-! ## The three ranges of the decoder -/

set_option maxRecDepth 100000 in
theorem cube_decode_nat : ∀ n : Nat, n < 232 → 16 ≤ n →
    xterm_to_rgb (n : Int) =
        some ⟨CUBE_STEPS.getD ((n - 16) / 36 % 6) 0, CUBE_STEPS.getD ((n - 16) / 6 % 6) 0,
          CUBE_STEPS.getD ((n - 16) % 6) 0⟩ ∧
      readAt CUBE_STEPS (((n - 16) / 36 % 6 : Nat) : Int) =
        some (CUBE_STEPS.getD ((n - 16) / 36 % 6) 0) ∧
      readAt CUBE_STEPS (((n - 16) / 6 % 6 : Nat) : Int) =
        some (CUBE_STEPS.getD ((n - 16) / 6 % 6) 0) ∧
      readAt CUBE_STEPS (((n - 16) % 6 : Nat) : Int) =
        some (CUBE_STEPS.getD ((n - 16) % 6) 0) := by
  decide

theorem cube_level_mem : ∀ a : Nat, a < 6 →
    CUBE_STEPS.getD a 0 ∈ ([0, 95, 135, 175, 215, 255] : List Int) := by
  decide

/-- The cube levels are pairwise distinct: a position is determined by the
level read there. -/
theorem cube_position_unique (x : Int) (a : Nat) (ha : a < 6)
    (h : readAt CUBE_STEPS x = some (CUBE_STEPS.getD a 0)) : x = (a : Int) := by
  by_cases hx : 0 ≤ x ∧ x < 6
  · obtain ⟨h0, h6⟩ := hx
    interval_cases x <;> interval_cases a <;> first | rfl | (exfalso; revert h; decide)
  · exfalso
    by_cases h0 : 0 ≤ x
    · have hlen : CUBE_STEPS.length ≤ x.toNat := by
        have : CUBE_STEPS.length = 6 := rfl
        omega
      simp [readAt, h0, List.getElem?_eq_none hlen] at h
    · simp [readAt, h0] at h

/-- C6: for every index `i` in [16,231], with `v = i - 16`, `xterm_to_rgb i`
is the triple of cube levels at positions `(v / 36) mod 6`, `(v / 6) mod 6`
and `v mod 6`; each component is one of 0, 95, 135, 175, 215, 255; and
whenever `x`, `y`, `z` are positions of the red, green and blue components
in `CUBE_STEPS`, `16 + 36 x + 6 y + z = i`. -/
theorem xterm_to_rgb_cube (i : Int) (hi : 16 ≤ i ∧ i ≤ 231) :
    ∃ r g b : Int,
      readAt CUBE_STEPS (((i - 16) / 36) % 6) = some r ∧
      readAt CUBE_STEPS (((i - 16) / 6) % 6) = some g ∧
      readAt CUBE_STEPS ((i - 16) % 6) = some b ∧
      xterm_to_rgb i = some ⟨r, g, b⟩ ∧
      r ∈ ([0, 95, 135, 175, 215, 255] : List Int) ∧
      g ∈ ([0, 95, 135, 175, 215, 255] : List Int) ∧
      b ∈ ([0, 95, 135, 175, 215, 255] : List Int) ∧
      ∀ x y z : Int, readAt CUBE_STEPS x = some r → readAt CUBE_STEPS y = some g →
        readAt CUBE_STEPS z = some b → 16 + 36 * x + 6 * y + z = i := by
  obtain ⟨n, rfl⟩ := Int.eq_ofNat_of_zero_le (show 0 ≤ i by omega)
  have hn1 : n < 232 := by omega
  have hn2 : 16 ≤ n := by omega
  obtain ⟨hdec, hra, hrb, hrc⟩ := cube_decode_nat n hn1 hn2
  have ea : (((n : Int) - 16) / 36) % 6 = (((n - 16) / 36 % 6 : Nat) : Int) := by omega
  have eb : (((n : Int) - 16) / 6) % 6 = (((n - 16) / 6 % 6 : Nat) : Int) := by omega
  have ec : ((n : Int) - 16) % 6 = (((n - 16) % 6 : Nat) : Int) := by omega
  have la : (n - 16) / 36 % 6 < 6 := Nat.mod_lt _ (by decide)
  have lb : (n - 16) / 6 % 6 < 6 := Nat.mod_lt _ (by decide)
  have lc : (n - 16) % 6 < 6 := Nat.mod_lt _ (by decide)
  refine ⟨_, _, _, ?_, ?_, ?_, hdec, cube_level_mem _ la, cube_level_mem _ lb,
    cube_level_mem _ lc, ?_⟩
  · rw [ea]; exact hra
  · rw [eb]; exact hrb
  · rw [ec]; exact hrc
  · intro x y z hx hy hz
    have px := cube_position_unique x _ la hx
    have py := cube_position_unique y _ lb hy
    have pz := cube_position_unique z _ lc hz
    omega

theorem xterm_to_rgb_cube_witness :
    (16 ≤ (110 : Int) ∧ (110 : Int) ≤ 231) ∧
    ∃ r g b : Int,
      readAt CUBE_STEPS ((((110 : Int) - 16) / 36) % 6) = some r ∧
      readAt CUBE_STEPS ((((110 : Int) - 16) / 6) % 6) = some g ∧
      readAt CUBE_STEPS (((110 : Int) - 16) % 6) = some b ∧
      xterm_to_rgb 110 = some ⟨r, g, b⟩ ∧
      r ∈ ([0, 95, 135, 175, 215, 255] : List Int) ∧
      g ∈ ([0, 95, 135, 175, 215, 255] : List Int) ∧
      b ∈ ([0, 95, 135, 175, 215, 255] : List Int) ∧
      ∀ x y z : Int, readAt CUBE_STEPS x = some r → readAt CUBE_STEPS y = some g →
        readAt CUBE_STEPS z = some b → 16 + 36 * x + 6 * y + z = 110 :=
  ⟨by decide, xterm_to_rgb_cube 110 (by decide)⟩

theorem xterm_to_rgb_gray_eq (i : Int) (h1 : 232 ≤ i) (h2 : i ≤ 255) :
    xterm_to_rgb i = some ⟨8 + (i - 232) * 10, 8 + (i - 232) * 10, 8 + (i - 232) * 10⟩ := by
  have n1 : ¬ i < 16 := by omega
  have n2 : ¬ (16 ≤ i ∧ i ≤ 231) := by omega
  simp [xterm_to_rgb, n1, n2, h1, h2]

/-- C7: for every index `i` in [232,255], `xterm_to_rgb i` has
`r = g = b = 8 + (i - 232) * 10`; the gray value lies between 8 (attained
at 232) and 238 (attained at 255), is never 255, and is strictly smaller
than the gray value of every later index up to 255. -/
theorem xterm_to_rgb_gray (i : Int) (hi : 232 ≤ i ∧ i ≤ 255) :
    ∃ v : Int, v = 8 + (i - 232) * 10 ∧ xterm_to_rgb i = some ⟨v, v, v⟩ ∧
      8 ≤ v ∧ v ≤ 238 ∧ v ≠ 255 ∧ (i = 232 → v = 8) ∧ (i = 255 → v = 238) ∧
      ∀ j : Int, i < j → j ≤ 255 →
        ∃ w : Int, xterm_to_rgb j = some ⟨w, w, w⟩ ∧ v < w := by
  refine ⟨8 + (i - 232) * 10, rfl, xterm_to_rgb_gray_eq i hi.1 hi.2, by omega, by omega,
    by omega, by omega, by omega, ?_⟩
  intro j hij hj
  exact ⟨8 + (j - 232) * 10, xterm_to_rgb_gray_eq j (by omega) hj, by omega⟩

theorem xterm_to_rgb_gray_witness :
    (232 ≤ (240 : Int) ∧ (240 : Int) ≤ 255) ∧
    ∃ v : Int, v = 8 + ((240 : Int) - 232) * 10 ∧ xterm_to_rgb 240 = some ⟨v, v, v⟩ ∧
      8 ≤ v ∧ v ≤ 238 ∧ v ≠ 255 ∧ ((240 : Int) = 232 → v = 8) ∧
      ((240 : Int) = 255 → v = 238) ∧
      ∀ j : Int, 240 < j → j ≤ 255 →
        ∃ w : Int, xterm_to_rgb j = some ⟨w, w, w⟩ ∧ v < w :=
  ⟨by decide, xterm_to_rgb_gray 240 (by decide)⟩

/-- C8: for every index `i` in [0,15], `xterm_to_rgb i` is the `i`-th entry of
`BASIC16`; index 0 gives (0,0,0), index 10 gives (0,255,0), index 12 gives
(92,92,255) and index 15 gives (255,255,255). -/
theorem xterm_to_rgb_basic16 (i : Int) (hi : 0 ≤ i ∧ i ≤ 15) :
    (∃ p : rgb_t, BASIC16[i.toNat]? = some p ∧ xterm_to_rgb i = some p) ∧
      xterm_to_rgb 0 = some ⟨0, 0, 0⟩ ∧ xterm_to_rgb 10 = some ⟨0, 255, 0⟩ ∧
      xterm_to_rgb 12 = some ⟨92, 92, 255⟩ ∧ xterm_to_rgb 15 = some ⟨255, 255, 255⟩ := by
  refine ⟨?_, by decide, by decide, by decide, by decide⟩
  have h16 : i < 16 := by omega
  have hlt : i.toNat < BASIC16.length := by
    have : BASIC16.length = 16 := rfl
    omega
  refine ⟨BASIC16[i.toNat], List.getElem?_eq_getElem hlt, ?_⟩
  simp [xterm_to_rgb, h16, readAt, hi.1, List.getElem?_eq_getElem hlt]

theorem xterm_to_rgb_basic16_witness :
    (0 ≤ (7 : Int) ∧ (7 : Int) ≤ 15) ∧
    (∃ p : rgb_t, BASIC16[(7 : Int).toNat]? = some p ∧ xterm_to_rgb 7 = some p) ∧
      xterm_to_rgb 0 = some ⟨0, 0, 0⟩ ∧ xterm_to_rgb 10 = some ⟨0, 255, 0⟩ ∧
      xterm_to_rgb 12 = some ⟨92, 92, 255⟩ ∧ xterm_to_rgb 15 = some ⟨255, 255, 255⟩ :=
  ⟨by decide, xterm_to_rgb_basic16 7 (by decide)⟩

/-! ## The table initialiser -/

/-- C9: from any previous contents of the 256-entry table, `init` returns,
and in the table it leaves entry `i` is `xterm_to_rgb i` for every `i` in
[0,255]. -/
theorem init_table_agrees (tbl0 : List rgb_t) (hlen : tbl0.length = 256) :
    ∃ (T : List rgb_t) (status : Int), init tbl0 = some (T, status) ∧ T.length = 256 ∧
      ∀ i : Nat, i ≤ 255 →
        ∃ p : rgb_t, xterm_to_rgb (i : Int) = some p ∧ T[i]? = some p := by
  refine ⟨palette, 0, init_eq_palette tbl0 hlen, by simp [palette], ?_⟩
  intro i hi
  exact ⟨decodeD i, (xterm_to_rgb_defined i (by omega)).1, palette_getElem? i (by omega)⟩

theorem init_table_agrees_witness :
    COLOR_TABLE_zero.length = 256 ∧
    ∃ (T : List rgb_t) (status : Int), init COLOR_TABLE_zero = some (T, status) ∧
      T.length = 256 ∧
      ∀ i : Nat, i ≤ 255 →
        ∃ p : rgb_t, xterm_to_rgb (i : Int) = some p ∧ T[i]? = some p :=
  ⟨COLOR_TABLE_zero_length, init_table_agrees COLOR_TABLE_zero COLOR_TABLE_zero_length⟩

/-- C10: from any previous contents of the 256-entry table, `init` returns
status 0, and running `init` again on the table it leaves returns status 0
with the very same table. -/
theorem init_idempotent (tbl0 : List rgb_t) (hlen : tbl0.length = 256) :
    ∃ T : List rgb_t, init tbl0 = some (T, 0) ∧ T.length = 256 ∧ init T = some (T, 0) := by
  have hp : palette.length = 256 := by simp [palette]
  exact ⟨palette, init_eq_palette tbl0 hlen, hp, init_eq_palette palette hp⟩

theorem init_idempotent_witness :
    COLOR_TABLE_zero.length = 256 ∧
    ∃ T : List rgb_t, init COLOR_TABLE_zero = some (T, 0) ∧ T.length = 256 ∧
      init T = some (T, 0) :=
  ⟨COLOR_TABLE_zero_length, init_idempotent COLOR_TABLE_zero COLOR_TABLE_zero_length⟩

/-! ## The packed decoder -/

set_option maxRecDepth 100000 in
theorem xterm_to_rgb_i_nat : ∀ n : Nat, n < 256 →
    xterm_to_rgb_i (n : Int) =
        some (65536 * (decodeD n).r + 256 * (decodeD n).g + (decodeD n).b) ∧
      Int.lor (Int.lor ((decodeD n).r * 2 ^ 16) ((decodeD n).g * 2 ^ 8)) (decodeD n).b =
        65536 * (decodeD n).r + 256 * (decodeD n).g + (decodeD n).b ∧
      Int.land (Int.shiftRight (65536 * (decodeD n).r + 256 * (decodeD n).g + (decodeD n).b) 16)
        255 = (decodeD n).r ∧
      Int.land (Int.shiftRight (65536 * (decodeD n).r + 256 * (decodeD n).g + (decodeD n).b) 8)
        255 = (decodeD n).g ∧
      Int.land (65536 * (decodeD n).r + 256 * (decodeD n).g + (decodeD n).b) 255 =
        (decodeD n).b := by
  decide

/-- C11: for every index `i` in [0,255], with `(r, g, b) = xterm_to_rgb i`,
`xterm_to_rgb_i i` returns `(r << 16) | (g << 8) | b`, which equals
`65536 r + 256 g + b` and lies in [0, 0xFFFFFF]; shifting right by 16, 8 and
0 and masking with 255 recovers `r`, `g` and `b`. -/
theorem xterm_to_rgb_i_lossless (i : Int) (hi : 0 ≤ i ∧ i ≤ 255) :
    ∃ (p : rgb_t) (v : Int), xterm_to_rgb i = some p ∧ xterm_to_rgb_i i = some v ∧
      v = Int.lor (Int.lor (p.r * 2 ^ 16) (p.g * 2 ^ 8)) p.b ∧
      v = 65536 * p.r + 256 * p.g + p.b ∧ 0 ≤ v ∧ v ≤ 0xFFFFFF ∧
      Int.land (Int.shiftRight v 16) 255 = p.r ∧
      Int.land (Int.shiftRight v 8) 255 = p.g ∧
      Int.land v 255 = p.b := by
  obtain ⟨n, rfl⟩ := Int.eq_ofNat_of_zero_le hi.1
  have hn : n < 256 := by omega
  obtain ⟨hdec, ⟨r0, r1⟩, ⟨g0, g1⟩, ⟨b0, b1⟩⟩ := xterm_to_rgb_defined n hn
  obtain ⟨hv, hor, hr, hg, hb⟩ := xterm_to_rgb_i_nat n hn
  exact ⟨decodeD n, _, hdec, hv, hor.symm, rfl, by omega, by omega, hr, hg, hb⟩

theorem xterm_to_rgb_i_lossless_witness :
    (0 ≤ (12 : Int) ∧ (12 : Int) ≤ 255) ∧
    ∃ (p : rgb_t) (v : Int), xterm_to_rgb 12 = some p ∧ xterm_to_rgb_i 12 = some v ∧
      v = Int.lor (Int.lor (p.r * 2 ^ 16) (p.g * 2 ^ 8)) p.b ∧
      v = 65536 * p.r + 256 * p.g + p.b ∧ 0 ≤ v ∧ v ≤ 0xFFFFFF ∧
      Int.land (Int.shiftRight v 16) 255 = p.r ∧
      Int.land (Int.shiftRight v 8) 255 = p.g ∧
      Int.land v 255 = p.b :=
  ⟨by decide, xterm_to_rgb_i_lossless 12 (by decide)⟩

/-! ## Totality on the documented domain -/

theorem foldlM_option_congr {α β : Type} (f g : β → α → Option β) :
    ∀ (l : List α) (s : β), (∀ a ∈ l, ∀ t : β, f t a = g t a) →
      l.foldlM f s = l.foldlM g s := by
  intro l
  induction l with
  | nil => intro s _; rfl
  | cons a l ih =>
    intro s h
    simp only [List.foldlM_cons]
    rw [h a (List.mem_cons_self a l) s]
    cases g s a with
    | none => rfl
    | some t => exact ih t (fun x hx u => h x (List.mem_cons_of_mem a hx) u)

/-- The scan depends on the table only through its entries 16..255. -/
theorem rgb_to_xterm_frame (tbl tbl2 : List rgb_t) (r g b : Int)
    (h : ∀ c : Nat, 16 ≤ c → c ≤ 255 → tbl2[c]? = tbl[c]?) :
    rgb_to_xterm tbl2 r g b = rgb_to_xterm tbl r g b := by
  unfold rgb_to_xterm
  congr 1
  apply foldlM_option_congr
  intro c hc st
  have hc2 := List.mem_range'_1.mp hc
  simp only [rgb_to_xterm_body, readAt_natCast, h c hc2.1 (by omega)]

set_option maxRecDepth 100000 in
theorem cube_positions_nat : ∀ n : Nat, n < 232 → 16 ≤ n →
    ((0 ≤ (((n : Int) - 16).tdiv 36).tmod 6 ∧ (((n : Int) - 16).tdiv 36).tmod 6 ≤ 5) ∧
      (readAt CUBE_STEPS ((((n : Int) - 16).tdiv 36).tmod 6)).isSome = true) ∧
    ((0 ≤ (((n : Int) - 16).tdiv 6).tmod 6 ∧ (((n : Int) - 16).tdiv 6).tmod 6 ≤ 5) ∧
      (readAt CUBE_STEPS ((((n : Int) - 16).tdiv 6).tmod 6)).isSome = true) ∧
    ((0 ≤ ((n : Int) - 16).tmod 6 ∧ ((n : Int) - 16).tmod 6 ≤ 5) ∧
      (readAt CUBE_STEPS (((n : Int) - 16).tmod 6)).isSome = true) := by
  decide

theorem basic16_position_nat : ∀ n : Nat, n < 16 → (readAt BASIC16 (n : Int)).isSome = true := by
  decide

/-- C12: for every index `i` in [0,255], exactly one of the three guards of
`xterm_to_rgb` holds; the read of `BASIC16` is at a position in [0,15] and
the three reads of `CUBE_STEPS` are at positions in [0,5], all inside their
arrays; and `xterm_to_rgb i` is a fully assigned triple. For a 256-entry
table, every read of `rgb_to_xterm` is at a position in [16,255] inside the
table and the result depends on no other entry; every write of `init` is at
a position in [0,255] inside the table, and `init` completes. -/
theorem decoder_total_in_bounds (i : Int) (hi : 0 ≤ i ∧ i ≤ 255)
    (tbl : List rgb_t) (hlen : tbl.length = 256) (r g b : Int) :
    ((i < 16 ∧ ¬ (16 ≤ i ∧ i ≤ 231) ∧ ¬ (232 ≤ i ∧ i ≤ 255)) ∨
      (¬ i < 16 ∧ (16 ≤ i ∧ i ≤ 231) ∧ ¬ (232 ≤ i ∧ i ≤ 255)) ∨
      (¬ i < 16 ∧ ¬ (16 ≤ i ∧ i ≤ 231) ∧ (232 ≤ i ∧ i ≤ 255))) ∧
    (i < 16 → (0 ≤ i ∧ i ≤ 15) ∧ (readAt BASIC16 i).isSome = true) ∧
    (16 ≤ i ∧ i ≤ 231 →
      ((0 ≤ ((i - 16).tdiv 36).tmod 6 ∧ ((i - 16).tdiv 36).tmod 6 ≤ 5) ∧
        (readAt CUBE_STEPS (((i - 16).tdiv 36).tmod 6)).isSome = true) ∧
      ((0 ≤ ((i - 16).tdiv 6).tmod 6 ∧ ((i - 16).tdiv 6).tmod 6 ≤ 5) ∧
        (readAt CUBE_STEPS (((i - 16).tdiv 6).tmod 6)).isSome = true) ∧
      ((0 ≤ (i - 16).tmod 6 ∧ (i - 16).tmod 6 ≤ 5) ∧
        (readAt CUBE_STEPS ((i - 16).tmod 6)).isSome = true)) ∧
    (∃ p : rgb_t, xterm_to_rgb i = some p) ∧
    (∀ c ∈ List.range' 16 (256 - 16),
      (16 ≤ c ∧ c ≤ 255) ∧ (readAt tbl (c : Int)).isSome = true) ∧
    (∀ tbl2 : List rgb_t, (∀ c : Nat, 16 ≤ c → c ≤ 255 → tbl2[c]? = tbl[c]?) →
      rgb_to_xterm tbl2 r g b = rgb_to_xterm tbl r g b) ∧
    (∀ c ∈ List.range' 0 256, c ≤ 255 ∧
      ∀ (t : List rgb_t) (v : rgb_t), t.length = 256 →
        ∃ t2 : List rgb_t, writeAt t c v = some t2 ∧ t2.length = 256) ∧
    (∃ T : List rgb_t, init tbl = some (T, 0) ∧ T.length = 256) := by
  obtain ⟨n, rfl⟩ := Int.eq_ofNat_of_zero_le hi.1
  have hn : n < 256 := by omega
  refine ⟨by omega, ?_, ?_, ⟨decodeD n, (xterm_to_rgb_defined n hn).1⟩, ?_,
    fun tbl2 h => rgb_to_xterm_frame tbl tbl2 r g b h, ?_,
    ⟨palette, init_eq_palette tbl hlen, by simp [palette]⟩⟩
  · intro h16
    exact ⟨by omega, basic16_position_nat n (by omega)⟩
  · intro h
    exact cube_positions_nat n (by omega) (by omega)
  · intro c hc
    have hc2 := List.mem_range'_1.mp hc
    refine ⟨⟨hc2.1, by omega⟩, ?_⟩
    rw [readAt_natCast, List.getElem?_eq_getElem (by omega)]
    rfl
  · intro c hc
    have hc2 := List.mem_range'_1.mp hc
    refine ⟨by omega, ?_⟩
    intro t v ht
    refine ⟨t.set c v, ?_, by simpa using ht⟩
    simp only [writeAt]
    rw [if_pos (by omega)]

theorem decoder_total_in_bounds_witness :
    (0 ≤ (100 : Int) ∧ (100 : Int) ≤ 255) ∧ COLOR_TABLE_zero.length = 256 ∧
    (∃ p : rgb_t, xterm_to_rgb 100 = some p) ∧
    (∃ T : List rgb_t, init COLOR_TABLE_zero = some (T, 0) ∧ T.length = 256) :=
  ⟨by decide, COLOR_TABLE_zero_length,
    (decoder_total_in_bounds 100 (by decide) COLOR_TABLE_zero COLOR_TABLE_zero_length
      1 2 3).2.2.2.1,
    (decoder_total_in_bounds 100 (by decide) COLOR_TABLE_zero COLOR_TABLE_zero_length
      1 2 3).2.2.2.2.2.2.2⟩

/-! ## Distinct colours and the white corner -/

/-- On the built table, the colour of a candidate quantises to that
candidate. -/
theorem rgb_to_xterm_decodeD (j : Nat) (h1 : 16 ≤ j) (h2 : j ≤ 255) :
    rgb_to_xterm palette (decodeD j).r (decodeD j).g (decodeD j).b = some (j : Int) := by
  obtain ⟨_, hr, hg, hb⟩ := xterm_to_rgb_defined j (by omega)
  obtain ⟨k, hk, h16, h256, hmin, _⟩ :=
    rgb_to_xterm_argmin (decodeD j).r (decodeD j).g (decodeD j).b hr hg hb
  have h0 := hmin j h1 (by omega)
  rw [sqdist_self] at h0
  have hz : sqdist (decodeD k) (decodeD j).r (decodeD j).g (decodeD j).b = 0 :=
    Int.le_antisymm h0 (sqdist_nonneg _ _ _ _)
  have hkj : k = j :=
    decodeD_injOn k j ⟨h16, h256⟩ ⟨h1, by omega⟩ (eq_of_sqdist_eq_zero _ _ _ _ hz)
  rw [hk, hkj]

theorem decodeD_231 : decodeD 231 = ⟨255, 255, 255⟩ := by decide

theorem decodeD_255 : decodeD 255 = ⟨238, 238, 238⟩ := by decide

/-- C13 (counterexample): index 255 decodes to (238,238,238), the top of the
gray ramp, not to (255,255,255); indices 231 and 255 decode to different
colours. -/
theorem xterm_to_rgb_255_not_white :
    xterm_to_rgb 255 = some ⟨238, 238, 238⟩ ∧
    xterm_to_rgb 255 ≠ some ⟨255, 255, 255⟩ ∧
    xterm_to_rgb 231 ≠ xterm_to_rgb 255 := by
  decide

/-- C13 (amended): index 231 decodes to (255,255,255) and index 255 to
(238,238,238). On the table built by `init`, candidate 231 is at squared
distance 0 from (255,255,255), candidate 255 at squared distance 867 and
every other candidate in 16..255 at a positive distance, so there is no tie
and `rgb_to_xterm 255 255 255` returns 231. -/
theorem rgb_to_xterm_white (tbl0 : List rgb_t) (hlen : tbl0.length = 256) :
    xterm_to_rgb 231 = some ⟨255, 255, 255⟩ ∧ xterm_to_rgb 255 = some ⟨238, 238, 238⟩ ∧
    ∃ T : List rgb_t, init tbl0 = some (T, 0) ∧
      rgb_to_xterm T 255 255 255 = some 231 ∧
      (∃ p : rgb_t, T[231]? = some p ∧ sqdist p 255 255 255 = 0) ∧
      (∃ p : rgb_t, T[255]? = some p ∧ sqdist p 255 255 255 = 867) ∧
      (∀ c : Nat, 16 ≤ c → c ≤ 255 → c ≠ 231 →
        ∃ p : rgb_t, T[c]? = some p ∧ 0 < sqdist p 255 255 255) := by
  refine ⟨by decide, by decide, palette, init_eq_palette tbl0 hlen, ?_, ?_, ?_, ?_⟩
  · have h := rgb_to_xterm_decodeD 231 (by omega) (by omega)
    rw [decodeD_231] at h
    exact h
  · exact ⟨decodeD 231, palette_getElem? 231 (by omega), by rw [decodeD_231]; rfl⟩
  · exact ⟨decodeD 255, palette_getElem? 255 (by omega), by rw [decodeD_255]; rfl⟩
  · intro c h1 h2 hne
    refine ⟨decodeD c, palette_getElem? c (by omega), ?_⟩
    have h0 := sqdist_nonneg (decodeD c) 255 255 255
    by_cases h : sqdist (decodeD c) 255 255 255 = 0
    · exfalso
      have e := eq_of_sqdist_eq_zero (decodeD c) 255 255 255 h
      rw [← decodeD_231] at e
      exact hne (decodeD_injOn c 231 ⟨h1, by omega⟩ ⟨by omega, by omega⟩ e)
    · omega

theorem rgb_to_xterm_white_witness :
    COLOR_TABLE_zero.length = 256 ∧
    xterm_to_rgb 231 = some ⟨255, 255, 255⟩ ∧ xterm_to_rgb 255 = some ⟨238, 238, 238⟩ ∧
    ∃ T : List rgb_t, init COLOR_TABLE_zero = some (T, 0) ∧
      rgb_to_xterm T 255 255 255 = some 231 ∧
      (∃ p : rgb_t, T[231]? = some p ∧ sqdist p 255 255 255 = 0) ∧
      (∃ p : rgb_t, T[255]? = some p ∧ sqdist p 255 255 255 = 867) ∧
      (∀ c : Nat, 16 ≤ c → c ≤ 255 → c ≠ 231 →
        ∃ p : rgb_t, T[c]? = some p ∧ 0 < sqdist p 255 255 255) :=
  ⟨COLOR_TABLE_zero_length, rgb_to_xterm_white COLOR_TABLE_zero COLOR_TABLE_zero_length⟩

/-- C14: for all indices `i ≠ j` in [16,255], `xterm_to_rgb i` and
`xterm_to_rgb j` are defined and are different colours. -/
theorem xterm_to_rgb_injective (i j : Int) (hi : 16 ≤ i ∧ i ≤ 255)
    (hj : 16 ≤ j ∧ j ≤ 255) (hne : i ≠ j) :
    ∃ p q : rgb_t, xterm_to_rgb i = some p ∧ xterm_to_rgb j = some q ∧ p ≠ q ∧
      xterm_to_rgb i ≠ xterm_to_rgb j := by
  obtain ⟨n, rfl⟩ := Int.eq_ofNat_of_zero_le (show 0 ≤ i by omega)
  obtain ⟨m, rfl⟩ := Int.eq_ofNat_of_zero_le (show 0 ≤ j by omega)
  have hn := (xterm_to_rgb_defined n (by omega)).1
  have hm := (xterm_to_rgb_defined m (by omega)).1
  have hpq : decodeD n ≠ decodeD m := by
    intro e
    have := decodeD_injOn n m ⟨by omega, by omega⟩ ⟨by omega, by omega⟩ e
    exact hne (by rw [this])
  refine ⟨decodeD n, decodeD m, hn, hm, hpq, ?_⟩
  rw [hn, hm]
  intro e
  exact hpq (Option.some.inj e)

theorem xterm_to_rgb_injective_witness :
    (16 ≤ (59 : Int) ∧ (59 : Int) ≤ 255) ∧ (16 ≤ (241 : Int) ∧ (241 : Int) ≤ 255) ∧
    (59 : Int) ≠ 241 ∧
    ∃ p q : rgb_t, xterm_to_rgb 59 = some p ∧ xterm_to_rgb 241 = some q ∧ p ≠ q ∧
      xterm_to_rgb 59 ≠ xterm_to_rgb 241 :=
  ⟨by decide, by decide, by decide,
    xterm_to_rgb_injective 59 241 (by decide) (by decide) (by decide)⟩

/-! ## The distance range, the sentinel and the uninitialised table -/

/-- On the built table and byte inputs, the first iteration replaces the
seed by candidate 16. -/
theorem first_candidate_replaces (r g b : Int)
    (hr : 0 ≤ r ∧ r ≤ 255) (hg : 0 ≤ g ∧ g ≤ 255) (hb : 0 ≤ b ∧ b ≤ 255) :
    rgb_to_xterm_body palette r g b ((0 : Int), (1000000000 : Int)) 16 =
      some ((16 : Int), sqdist (decodeD 16) r g b) := by
  have hD := body_on_palette r g b ⟨by omega, by omega⟩ ⟨by omega, by omega⟩
    ⟨by omega, by omega⟩ 16 (Nat.le_refl _) (by omega) ((0 : Int), (1000000000 : Int))
  have hle := sqdist_le (decodeD 16) r g b (xterm_to_rgb_defined 16 (by omega)).2 hr hg hb
  rw [hD, if_pos (by simp only; omega)]
  rfl

/-- C15: with the table built by `init`, for every `r, g, b` in [0,255] and
every candidate `c` in [16,255], the distance expression of `rgb_to_xterm`
evaluates without any signed 32-bit overflow, to the exact squared distance
`d` with `0 ≤ d ≤ 3 * 255 ^ 2 = 195075 < 1000000000`; and the first
iteration, at index 16, replaces the sentinel. -/
theorem distance_range (tbl0 : List rgb_t) (hlen : tbl0.length = 256)
    (r g b : Int) (hr : 0 ≤ r ∧ r ≤ 255) (hg : 0 ≤ g ∧ g ≤ 255) (hb : 0 ≤ b ∧ b ≤ 255)
    (c : Nat) (hc : 16 ≤ c ∧ c ≤ 255) :
    ∃ (T : List rgb_t) (p : rgb_t) (d : Int),
      init tbl0 = some (T, 0) ∧ readAt T (c : Int) = some p ∧
      distance p r g b = some d ∧ d = sqdist p r g b ∧
      0 ≤ d ∧ d ≤ 3 * 255 ^ 2 ∧ (3 * 255 ^ 2 : Int) = 195075 ∧ d < 1000000000 ∧
      ∃ d16 : Int, d16 < 1000000000 ∧
        rgb_to_xterm_body T r g b ((0 : Int), (1000000000 : Int)) 16 =
          some ((16 : Int), d16) := by
  have hc256 : c < 256 := by omega
  obtain ⟨_, hbyte⟩ := xterm_to_rgb_defined c hc256
  obtain ⟨⟨r0, r1⟩, ⟨g0, g1⟩, ⟨b0, b1⟩⟩ := hbyte
  have hd := distance_eq_some (decodeD c) r g b
    ⟨by omega, by omega⟩ ⟨by omega, by omega⟩ ⟨by omega, by omega⟩
  have hle := sqdist_le (decodeD c) r g b ⟨⟨r0, r1⟩, ⟨g0, g1⟩, ⟨b0, b1⟩⟩ hr hg hb
  have hle16 := sqdist_le (decodeD 16) r g b (xterm_to_rgb_defined 16 (by omega)).2 hr hg hb
  refine ⟨palette, decodeD c, sqdist (decodeD c) r g b, init_eq_palette tbl0 hlen, ?_, hd,
    rfl, sqdist_nonneg _ _ _ _, by norm_num; omega, by norm_num, by omega,
    sqdist (decodeD 16) r g b, by omega, first_candidate_replaces r g b hr hg hb⟩
  rw [readAt_natCast, palette_getElem? c hc256]

theorem distance_range_witness :
    COLOR_TABLE_zero.length = 256 ∧ (0 ≤ (255 : Int) ∧ (255 : Int) ≤ 255) ∧
    (0 ≤ (0 : Int) ∧ (0 : Int) ≤ 255) ∧ (16 ≤ 16 ∧ 16 ≤ 255) ∧
    ∃ (T : List rgb_t) (p : rgb_t) (d : Int),
      init COLOR_TABLE_zero = some (T, 0) ∧ readAt T ((16 : Nat) : Int) = some p ∧
      distance p 255 255 0 = some d ∧ d = sqdist p 255 255 0 ∧
      0 ≤ d ∧ d ≤ 3 * 255 ^ 2 ∧ (3 * 255 ^ 2 : Int) = 195075 ∧ d < 1000000000 ∧
      ∃ d16 : Int, d16 < 1000000000 ∧
        rgb_to_xterm_body T 255 255 0 ((0 : Int), (1000000000 : Int)) 16 =
          some ((16 : Int), d16) :=
  ⟨COLOR_TABLE_zero_length, by decide, by decide, by decide,
    distance_range COLOR_TABLE_zero COLOR_TABLE_zero_length 255 255 0
      (by decide) (by decide) (by decide) 16 (by decide)⟩

/-- C16: with the table built by `init`, for every `r, g, b` in [0,255],
`rgb_to_xterm` (seeded with index 0 and the sentinel 1000000000, scanning
16..255) returns the same index as the scan seeded with index 16 and its
distance that then visits 17..255. -/
theorem rgb_to_xterm_eq_seeded (tbl0 : List rgb_t) (hlen : tbl0.length = 256)
    (r g b : Int) (hr : 0 ≤ r ∧ r ≤ 255) (hg : 0 ≤ g ∧ g ≤ 255) (hb : 0 ≤ b ∧ b ≤ 255) :
    ∃ (T : List rgb_t) (k : Int), init tbl0 = some (T, 0) ∧
      rgb_to_xterm T r g b = some k ∧ rgb_to_xterm_seeded T r g b = some k := by
  obtain ⟨k, hk, _⟩ := rgb_to_xterm_argmin r g b hr hg hb
  refine ⟨palette, (k : Int), init_eq_palette tbl0 hlen, hk, ?_⟩
  rw [← hk]
  obtain ⟨_, ⟨⟨r0, r1⟩, ⟨g0, g1⟩, ⟨b0, b1⟩⟩⟩ := xterm_to_rgb_defined 16 (by omega)
  have hd := distance_eq_some (decodeD 16) r g b
    ⟨by omega, by omega⟩ ⟨by omega, by omega⟩ ⟨by omega, by omega⟩
  have hread : readAt palette 16 = some (decodeD 16) := by
    have := readAt_natCast palette 16
    rw [palette_getElem? 16 (by omega)] at this
    exact this
  have h1 : rgb_to_xterm palette r g b =
      ((List.range' 17 239).foldlM (rgb_to_xterm_body palette r g b)
        ((16 : Int), sqdist (decodeD 16) r g b)).map Prod.fst := by
    unfold rgb_to_xterm
    rw [show (256 - 16 : Nat) = 239 + 1 from rfl, List.range'_succ, List.foldlM_cons,
      first_candidate_replaces r g b hr hg hb]
    simp only [Option.bind_eq_bind, Option.some_bind, Nat.reduceAdd]
  have h2 : rgb_to_xterm_seeded palette r g b =
      ((List.range' 17 239).foldlM (rgb_to_xterm_body palette r g b)
        ((16 : Int), sqdist (decodeD 16) r g b)).map Prod.fst := by
    unfold rgb_to_xterm_seeded
    rw [hread]
    simp only [Option.bind_eq_bind, Option.some_bind]
    rw [hd]
    simp only [Option.some_bind, Nat.reduceSub]
  rw [h1, h2]

theorem rgb_to_xterm_eq_seeded_witness :
    COLOR_TABLE_zero.length = 256 ∧ (0 ≤ (7 : Int) ∧ (7 : Int) ≤ 255) ∧
    (0 ≤ (77 : Int) ∧ (77 : Int) ≤ 255) ∧ (0 ≤ (177 : Int) ∧ (177 : Int) ≤ 255) ∧
    ∃ (T : List rgb_t) (k : Int), init COLOR_TABLE_zero = some (T, 0) ∧
      rgb_to_xterm T 7 77 177 = some k ∧ rgb_to_xterm_seeded T 7 77 177 = some k :=
  ⟨COLOR_TABLE_zero_length, by decide, by decide, by decide,
    rgb_to_xterm_eq_seeded COLOR_TABLE_zero COLOR_TABLE_zero_length 7 77 177
      (by decide) (by decide) (by decide)⟩

/-! ## Before initialisation, and outside the domain -/

theorem COLOR_TABLE_zero_getElem? (c : Nat) (hc : c < 256) :
    COLOR_TABLE_zero[c]? = some ⟨0, 0, 0⟩ := by
  unfold COLOR_TABLE_zero
  rw [List.getElem?_replicate, if_pos hc]

/-- On the zero table every candidate has the same distance. -/
theorem body_on_zero (r g b : Int)
    (hr : 0 ≤ r ∧ r ≤ 255) (hg : 0 ≤ g ∧ g ≤ 255) (hb : 0 ≤ b ∧ b ≤ 255) :
    ∀ c : Nat, 16 ≤ c → c < 256 → ∀ st : Int × Int,
      rgb_to_xterm_body COLOR_TABLE_zero r g b st c =
        some (if sqdist ⟨0, 0, 0⟩ r g b < st.2
          then ((c : Int), sqdist ⟨0, 0, 0⟩ r g b) else st) := by
  intro c _ hc st
  have hd := distance_eq_some ⟨0, 0, 0⟩ r g b
    ⟨by simp only; omega, by simp only; omega⟩ ⟨by simp only; omega, by simp only; omega⟩
    ⟨by simp only; omega, by simp only; omega⟩
  simp only [rgb_to_xterm_body, readAt_natCast, COLOR_TABLE_zero_getElem? c hc, hd,
    Option.bind_eq_bind, Option.some_bind]
  split <;> rfl

theorem rgb_to_xterm_zero_table (r g b : Int)
    (hr : 0 ≤ r ∧ r ≤ 255) (hg : 0 ≤ g ∧ g ≤ 255) (hb : 0 ≤ b ∧ b ≤ 255) :
    rgb_to_xterm COLOR_TABLE_zero r g b = some 16 := by
  rcases rgb_to_xterm_spec COLOR_TABLE_zero r g b (fun _ => sqdist ⟨0, 0, 0⟩ r g b)
      (body_on_zero r g b hr hg hb) with ⟨_, hall⟩ | ⟨k, hk, h16, _, _, _, hleft⟩
  · exfalso
    have h1 := hall 16 (Nat.le_refl _) (by omega)
    have h2 := sqdist_le ⟨0, 0, 0⟩ r g b (by decide) hr hg hb
    simp only at h1
    omega
  · by_cases hk16 : k = 16
    · rw [hk, hk16]; rfl
    · exfalso
      have := hleft 16 (Nat.le_refl _) (by omega)
      simp only at this
      omega

/-- C17: while `COLOR_TABLE` still holds its initial zeros, `rgb_to_xterm`
returns 16 for every `r, g, b` in [0,255]; hence whenever the index `k`
returned on the table built by `init` is not 16, the two results differ. -/
theorem rgb_to_xterm_uninitialised (tbl0 : List rgb_t) (hlen : tbl0.length = 256)
    (r g b : Int) (hr : 0 ≤ r ∧ r ≤ 255) (hg : 0 ≤ g ∧ g ≤ 255) (hb : 0 ≤ b ∧ b ≤ 255) :
    rgb_to_xterm COLOR_TABLE_zero r g b = some 16 ∧
    ∃ (T : List rgb_t) (k : Int), init tbl0 = some (T, 0) ∧ rgb_to_xterm T r g b = some k ∧
      (k ≠ 16 → rgb_to_xterm COLOR_TABLE_zero r g b ≠ rgb_to_xterm T r g b) := by
  have hz := rgb_to_xterm_zero_table r g b hr hg hb
  obtain ⟨k, hk, _⟩ := rgb_to_xterm_argmin r g b hr hg hb
  refine ⟨hz, palette, (k : Int), init_eq_palette tbl0 hlen, hk, ?_⟩
  intro hne e
  rw [hz, hk] at e
  exact hne (Option.some.inj e).symm

theorem rgb_to_xterm_uninitialised_witness :
    COLOR_TABLE_zero.length = 256 ∧ (0 ≤ (255 : Int) ∧ (255 : Int) ≤ 255) ∧
    rgb_to_xterm COLOR_TABLE_zero 255 255 255 = some 16 ∧
    ∃ (T : List rgb_t) (k : Int), init COLOR_TABLE_zero = some (T, 0) ∧
      rgb_to_xterm T 255 255 255 = some k ∧
      (k ≠ 16 → rgb_to_xterm COLOR_TABLE_zero 255 255 255 ≠ rgb_to_xterm T 255 255 255) :=
  ⟨COLOR_TABLE_zero_length, by decide,
    rgb_to_xterm_uninitialised COLOR_TABLE_zero COLOR_TABLE_zero_length 255 255 255
      (by decide) (by decide) (by decide)⟩

/-- C18: `xterm_to_rgb i` is a defined triple exactly when `0 ≤ i ≤ 255`. For
`i < 0` the first guard `i < 16` holds, the function is the read of
`BASIC16` at the negative position `i`, and that read is outside the table.
For `i > 255` none of the three guards holds and the result is returned
unassigned. -/
theorem xterm_to_rgb_defined_iff (i : Int) :
    ((∃ p : rgb_t, xterm_to_rgb i = some p) ↔ (0 ≤ i ∧ i ≤ 255)) ∧
    (i < 0 → i < 16 ∧ xterm_to_rgb i = readAt BASIC16 i ∧ readAt BASIC16 i = none) ∧
    (255 < i → (¬ i < 16 ∧ ¬ (16 ≤ i ∧ i ≤ 231) ∧ ¬ (232 ≤ i ∧ i ≤ 255)) ∧
      xterm_to_rgb i = none) := by
  have hneg : i < 0 → i < 16 ∧ xterm_to_rgb i = readAt BASIC16 i ∧
      readAt BASIC16 i = none := by
    intro h
    have h16 : i < 16 := by omega
    refine ⟨h16, by simp [xterm_to_rgb, h16], ?_⟩
    simp [readAt, show ¬ (0 ≤ i) by omega]
  have hbig : 255 < i → (¬ i < 16 ∧ ¬ (16 ≤ i ∧ i ≤ 231) ∧ ¬ (232 ≤ i ∧ i ≤ 255)) ∧
      xterm_to_rgb i = none := by
    intro h
    have n1 : ¬ i < 16 := by omega
    have n2 : ¬ (16 ≤ i ∧ i ≤ 231) := by omega
    have n3 : ¬ (232 ≤ i ∧ i ≤ 255) := by omega
    exact ⟨⟨n1, n2, n3⟩, by simp only [xterm_to_rgb, if_neg n1, if_neg n2, if_neg n3]⟩
  refine ⟨⟨?_, ?_⟩, hneg, hbig⟩
  · rintro ⟨p, hp⟩
    by_contra hcon
    by_cases h0 : i < 0
    · obtain ⟨_, e1, e2⟩ := hneg h0
      rw [e1, e2] at hp
      exact Option.noConfusion hp
    · have e := (hbig (by omega)).2
      rw [e] at hp
      exact Option.noConfusion hp
  · rintro ⟨h0, h255⟩
    obtain ⟨n, rfl⟩ := Int.eq_ofNat_of_zero_le h0
    exact ⟨decodeD n, (xterm_to_rgb_defined n (by omega)).1⟩

theorem xterm_to_rgb_defined_iff_witness :
    ((-1 : Int) < 0 ∧ (-1 : Int) < 16 ∧ xterm_to_rgb (-1) = readAt BASIC16 (-1) ∧
      readAt BASIC16 (-1 : Int) = none) ∧
    ((255 : Int) < 256 ∧ xterm_to_rgb 256 = none) ∧
    ((0 ≤ (255 : Int) ∧ (255 : Int) ≤ 255) ∧ ∃ p : rgb_t, xterm_to_rgb 255 = some p) :=
  ⟨⟨by decide, (xterm_to_rgb_defined_iff (-1)).2.1 (by decide)⟩,
    ⟨by decide, ((xterm_to_rgb_defined_iff 256).2.2 (by decide)).2⟩,
    ⟨by decide, (xterm_to_rgb_defined_iff 255).1.mpr (by decide)⟩⟩

end Xterm256
